import Mathlib

/-!
Verification of the Arke OCR chunk-worker service.

This file gives a shallow embedding of the worker's core logic and proves
properties of it:

* the rate-limit backoff controller (source `src/types.ts`, rate-limiter part:
  `onSuccess`, `onError`, `isInBackoff`, `getBackoffRemaining`, `clearBackoff`);
* the OCR image-URL variant rule (source `src/services/deepinfra.ts`,
  `buildOCRImageUrl`);
* the IPFS store client's CAS retry loop (source `src/services/ipfs-client.ts`,
  `appendVersionWithRetry`);
* the chunk worker state machine (source `src/do/OCRChunkDO.ts`:
  `handleProcess`, `alarm`, `fetchPhase`, `processPhase`, `publishPhase`,
  `buildCallback`, `sendCallback`, `sendErrorCallback`, `handleGlobalError`).

JavaScript strings are modelled as `List Char`; SQL tables as Lean lists;
epoch-millisecond timestamps as `ℤ`; the floating-point jitter draw of
`Math.random()` as an exact rational in `[0, 1)`.  External I/O (the OCR
provider, the CAS store, the orchestrator) is modelled by oracle functions
supplied as arguments: a fire of the timer is a pure function of the persisted
state and of the outcomes the external world returned during that fire.
-/

namespace ArkeOCR

/-- JavaScript strings are modelled as lists of characters. -/
abbrev Str := List Char

/-! ## Backoff controller

Source: the rate-limiter module (`createBackoffState`, `isInBackoff`,
`getBackoffRemaining`, `onSuccess`, `onError`, `clearBackoff`). -/

/-- Backoff state embedded in the worker's `state` row:
`consecutive_errors` and the optional `backoff_until` epoch-ms deadline. -/
structure BackoffState where
  consecutive_errors : ℕ
  backoff_until : Option ℤ
deriving DecidableEq

/-- Source `createBackoffState()`: zero errors, no deadline. -/
def createBackoffState : BackoffState :=
  { consecutive_errors := 0, backoff_until := none }

/-- Source `isInBackoff(state)`: `!!(state.backoff_until && Date.now() < state.backoff_until)`.
`now` is the value of `Date.now()` at the call. -/
def isInBackoff (now : ℤ) (st : BackoffState) : Bool :=
  match st.backoff_until with
  | none => false
  | some u => decide (now < u)

/-- Source `getBackoffRemaining(state)`: `Math.max(0, state.backoff_until - Date.now())`,
`0` when no deadline is set. -/
def getBackoffRemaining (now : ℤ) (st : BackoffState) : ℤ :=
  match st.backoff_until with
  | none => 0
  | some u => max 0 (u - now)

/-- Source `onSuccess(state)`: reset the error count and clear the deadline. -/
def onSuccess (_st : BackoffState) : BackoffState :=
  { consecutive_errors := 0, backoff_until := none }

/-- Source `clearBackoff(state)`: clear the deadline, keep the error count. -/
def clearBackoff (st : BackoffState) : BackoffState :=
  { st with backoff_until := none }

/-- JavaScript `Math.round` on a non-negative value: floor of `x + 1/2`
(written with the computable `Rat.floor`). -/
def jsRound (x : ℚ) : ℤ := Rat.floor (x + 1 / 2)

/-- Source `onError(state)`: increment `consecutive_errors`; base delay
`1000 · 2^min(consecutive_errors - 1, 5)` ms, capped by `min` against
`60000`; a symmetric ±25% jitter from the draw `rand = Math.random() ∈ [0,1)`;
deadline `now + Math.round(delay + jitter)`. -/
def onError (now : ℤ) (rand : ℚ) (st : BackoffState) : BackoffState :=
  let k := st.consecutive_errors + 1
  let baseDelay : ℚ := 1000 * 2 ^ min (k - 1) 5
  let maxDelay : ℚ := 60000
  let delay : ℚ := min baseDelay maxDelay
  let jitter : ℚ := delay * (1 / 4) * (rand * 2 - 1)
  let finalDelay : ℤ := jsRound (delay + jitter)
  { consecutive_errors := k, backoff_until := some (now + finalDelay) }

/-! ## OCR image-URL variant rule

Source: `buildOCRImageUrl` in `src/services/deepinfra.ts`.  The source checks
`cdnUrl.includes('cdn.arke.institute/asset/')` and then searches for the first
match of the regular expression `\/asset\/([A-Z0-9]+)(?:\/\w+)?`; the capture
group is the maximal run of `[A-Z0-9]` after the leftmost viable `/asset/`
occurrence (the trailing group is optional, so no backtracking can shrink the
greedy capture). -/

/-- Character class `[A-Z0-9]` of the asset-id capture group. -/
def isUpperAlnum (c : Char) : Bool :=
  (decide ('A' ≤ c) && decide (c ≤ 'Z')) || (decide ('0' ≤ c) && decide (c ≤ '9'))

/-- Character class `\w`, i.e. `[A-Za-z0-9_]`. -/
def isWordChar (c : Char) : Bool :=
  (decide ('A' ≤ c) && decide (c ≤ 'Z')) || (decide ('a' ≤ c) && decide (c ≤ 'z'))
    || (decide ('0' ≤ c) && decide (c ≤ '9')) || decide (c = '_')

/-- The literal `/asset/` scanned for by the regular expression. -/
def slashAsset : Str := "/asset/".toList

/-- The literal of the `includes` test: `cdn.arke.institute/asset/`. -/
def cdnNeedle : Str := "cdn.arke.institute/asset/".toList

/-- The host part `https://cdn.arke.institute` of the canonical CDN URLs. -/
def cdnHost : Str := "https://cdn.arke.institute".toList

/-- The canonical CDN asset URL prefix `https://cdn.arke.institute/asset/`. -/
def assetUrlPrefix : Str := "https://cdn.arke.institute/asset/".toList

/-- JavaScript `hay.includes(needle)`: some suffix of `hay` starts with `needle`. -/
def containsSub (needle : Str) : Str → Bool
  | [] => needle.isEmpty
  | c :: t => needle.isPrefixOf (c :: t) || containsSub needle t

/-- One position of the regex search: if the text starts with `/asset/`
followed by at least one `[A-Z0-9]` character, capture the maximal run. -/
def matchAssetAt (l : Str) : Option Str :=
  if slashAsset.isPrefixOf l then
    let run := (l.drop 7).takeWhile isUpperAlnum
    if run.isEmpty then none else some run
  else none

/-- Leftmost-match regex search for `\/asset\/([A-Z0-9]+)` over the URL,
returning the capture group of the first viable position. -/
def findAssetId : Str → Option Str
  | [] => none
  | c :: t =>
    match matchAssetAt (c :: t) with
    | some run => some run
    | none => findAssetId t

/-- Decidable scan: no suffix of the list can begin a `/asset/` occurrence
(each non-empty suffix fails the `/asset/` prefix test within its own
characters).  Used to certify that the regex search finds nothing inside a
concrete prefix of the URL. -/
def noAssetStart : Str → Bool
  | [] => true
  | c :: t => !((slashAsset.take (c :: t).length).isPrefixOf (c :: t)) && noAssetStart t

/-- Result of `buildOCRImageUrl`: a primary URL and an optional fallback. -/
structure OCRImageUrl where
  primary : Str
  fallback : Option Str
deriving DecidableEq

/-- The medium-variant URL `https://cdn.arke.institute/asset/{id}/medium`. -/
def mediumUrlFor (assetId : Str) : Str :=
  assetUrlPrefix ++ assetId ++ "/medium".toList

/-- The bare asset URL `https://cdn.arke.institute/asset/{id}`. -/
def baseUrlFor (assetId : Str) : Str :=
  assetUrlPrefix ++ assetId

/-- Source `buildOCRImageUrl(cdnUrl)`: when the URL contains
`cdn.arke.institute/asset/` and the regex finds an asset id, primary is the
`/medium` variant and fallback the bare asset URL; otherwise primary is the
URL itself with no fallback. -/
def buildOCRImageUrl (cdnUrl : Str) : OCRImageUrl :=
  if containsSub cdnNeedle cdnUrl then
    match findAssetId cdnUrl with
    | some assetId => { primary := mediumUrlFor assetId, fallback := some (baseUrlFor assetId) }
    | none => { primary := cdnUrl, fallback := none }
  else { primary := cdnUrl, fallback := none }

/-- The CDN asset pattern of the specification, read canonically: the URL is
exactly `https://cdn.arke.institute/asset/{ASSET_ID}` optionally followed by
`/{variant}`, with a non-empty `[A-Z0-9]` asset id and a non-empty `\w`
variant.  This definition follows the spec's words, to be compared with the
source-derived `buildOCRImageUrl`. -/
def specAssetUrl (assetId : Str) (variant : Option Str) : Str :=
  assetUrlPrefix ++ assetId ++ (match variant with | none => [] | some v => '/' :: v)

/-- The specification's "cdn_url matches the CDN asset pattern
`…/asset/{ASSET_ID}(/variant)?`", canonical reading. -/
def matchesCDNAssetPattern (u : Str) : Prop :=
  ∃ assetId variant, assetId ≠ [] ∧ (∀ c ∈ assetId, isUpperAlnum c = true) ∧
    (∀ v, variant = some v → v ≠ [] ∧ ∀ c ∈ v, isWordChar c = true) ∧
    u = specAssetUrl assetId variant

/-! ## IPFS store client: CAS append with retry

Source: `appendVersion`, `getEntityTip`, `appendVersionWithRetry` in
`src/services/ipfs-client.ts`.  The store's HTTP responses are oracles:
`http i` is the store's response to the `i`-th `appendVersion` attempt and
`resolve i` the response to the `i`-th `getEntityTip` call made after a CAS
failure. -/

/-- Successful `append_version` result (the fields the worker uses). -/
structure AppendOk where
  ver : ℕ
  tip : Str
deriving DecidableEq

/-- The store's response to one `appendVersion` POST: a 2xx with a parsed
body, or a non-ok status with an error body. -/
inductive AppendHttpResp where
  | ok (result : AppendOk)
  | errStatus (status : ℕ) (body : Str)
deriving DecidableEq

/-- The errors `appendVersionWithRetry` can surface: a `CASFailureError`
(HTTP 409), a generic append error (other non-ok status), a failure to fetch
the fresh tip after a CAS conflict, or the unreachable fallback of the
`lastError ||` expression. -/
inductive AVError where
  | cas (msg : Str)
  | http (status : ℕ) (msg : Str)
  | tipFetch (msg : Str)
  | exhausted
deriving DecidableEq

/-- Source `appendVersion`: a 2xx response yields the parsed result, a 409
throws `CASFailureError`, any other non-ok status throws a generic `Error`. -/
def appendVersionClassify : AppendHttpResp → Except AVError AppendOk
  | .ok r => .ok r
  | .errStatus s body => if s = 409 then .error (.cas body) else .error (.http s body)

/-- Observable actions of the retry loop: an `appendVersion` POST carrying
the `expect_tip` it sent, a `getEntityTip` call, and a sleep in ms. -/
inductive AVEvent where
  | append (expectTip : Str)
  | resolveTip
  | sleep (ms : ℕ)
deriving DecidableEq

/-- Source `appendVersionWithRetry` loop body, by remaining attempts (`fuel`
counts down from `maxRetries`, `attempt` up from 0).  On a CAS failure the
loop fetches a fresh tip (aborting if that fails), sleeps `100·(attempt+1)`
ms and retries with the fresh tip; a non-conflict error is rethrown at once;
when the attempts are exhausted the last error is thrown. -/
def appendVersionLoop (http : ℕ → AppendHttpResp) (resolve : ℕ → Except Str Str) :
    (fuel : ℕ) → (attempt : ℕ) → (tip : Str) → (lastErr : Option AVError) →
    Except AVError AppendOk × List AVEvent
  | 0, _, _, lastErr => (.error (lastErr.getD .exhausted), [])
  | fuel + 1, attempt, tip, _ =>
    match appendVersionClassify (http attempt) with
    | .ok r => (.ok r, [.append tip])
    | .error (.cas m) =>
      match resolve attempt with
      | .error tipMsg => (.error (.tipFetch tipMsg), [.append tip, .resolveTip])
      | .ok newTip =>
        let rest := appendVersionLoop http resolve fuel (attempt + 1) newTip (some (.cas m))
        (rest.1, .append tip :: .resolveTip :: .sleep (100 * (attempt + 1)) :: rest.2)
    | .error e => (.error e, [.append tip])

/-- Source `appendVersionWithRetry(pi, initialTip, components, note)` with the
default `maxRetries = 3`, returning its result together with the trace of
store interactions. -/
def appendVersionWithRetry (http : ℕ → AppendHttpResp) (resolve : ℕ → Except Str Str)
    (initialTip : Str) : Except AVError AppendOk × List AVEvent :=
  appendVersionLoop http resolve 3 0 initialTip none

/-- The `expect_tip` arguments of the `appendVersion` POSTs in a trace, in
order. -/
def appendTipsOf (es : List AVEvent) : List Str :=
  es.filterMap fun e => match e with | .append t => some t | _ => none

/-- The sleep durations in a trace, in order. -/
def sleepsOf (es : List AVEvent) : List ℕ :=
  es.filterMap fun e => match e with | .sleep ms => some ms | _ => none

/-- The retry-loop contract of `appendVersionWithRetry`, for a run that
starts at attempt index `attempt` with `expect_tip = tip` and has `fuel`
attempts left: at most `fuel` `appendVersion` POSTs are made; the first POST
carries `tip`; POST `i+1` exists only when POST `i` got a 409 and a fresh tip
was resolved, and then carries exactly that fresh tip; the sleeps are
`100·(attempt+1), 100·(attempt+2), …` after successive conflicting attempts;
and a non-409 failure of POST `i` ends the loop at once with that error as
the result. -/
def AVLoopRunSpec (http : ℕ → AppendHttpResp) (resolve : ℕ → Except Str Str)
    (attempt : ℕ) (tip : Str) (out : Except AVError AppendOk × List AVEvent)
    (fuel : ℕ) : Prop :=
  (appendTipsOf out.2).length ≤ fuel
  ∧ (0 < (appendTipsOf out.2).length → (appendTipsOf out.2)[0]? = some tip)
  ∧ (∀ i, i + 1 < (appendTipsOf out.2).length →
      (∃ body, http (attempt + i) = .errStatus 409 body)
      ∧ ∃ t, resolve (attempt + i) = .ok t ∧ (appendTipsOf out.2)[i + 1]? = some t)
  ∧ sleepsOf out.2 =
      (List.range (sleepsOf out.2).length).map (fun i => 100 * (attempt + i + 1))
  ∧ (∀ i s body, http (attempt + i) = .errStatus s body → s ≠ 409 →
      i < (appendTipsOf out.2).length →
      (appendTipsOf out.2).length = i + 1 ∧ out.1 = Except.error (.http s body))

/-! ## Chunk worker data model

Source: the SQLite tables created by `initTables` in `src/do/OCRChunkDO.ts`
(`state`, `pis`, `refs`) and the row interfaces `RefRow` / `PIRow`.  The five
ref statuses are exactly the TEXT values the source ever writes to
`refs.status`: `'pending'`, `'processing'`, `'done'`, `'skipped'`,
`'error'`. -/

/-- Status of one ref row. -/
inductive RefStatus where
  | pending
  | processing
  | done
  | skipped
  | error
deriving DecidableEq

/-- One row of the `refs` table. -/
structure RefRow where
  id : ℕ
  pi : Str
  filename : Str
  cdn_url : Str
  original_cid : Str
  status : RefStatus
  error : Option Str
  retry_count : ℕ
  ref_data_json : Option Str
  result_cid : Option Str
  ocr_text_length : Option ℕ
deriving DecidableEq

/-- One row of the `pis` table. -/
structure PIRow where
  pi : Str
  entity_updated : Bool
  new_tip : Option Str
  new_version : Option ℕ
  entity_error : Option Str
deriving DecidableEq

/-- The worker's phase, as stored in `state.phase`. -/
inductive Phase where
  | FETCHING
  | PROCESSING
  | PUBLISHING
  | DONE
  | ERROR
deriving DecidableEq

/-- The persisted chunk state: the single `state` row together with the
`pis` and `refs` tables (the capped `debug_log` table is modelled separately
where a claim depends on it). -/
structure ChunkState where
  batch_id : Str
  chunk_id : Str
  started_at : ℤ
  completed_at : Option ℤ
  phase : Phase
  total_refs : ℕ
  completed_refs : ℕ
  failed_refs : ℕ
  skipped_refs : ℕ
  global_error : Option Str
  global_retry_count : ℕ
  backoff : BackoffState
  pis : List PIRow
  refs : List RefRow
deriving DecidableEq

/-- Count of refs with a given status. -/
def countStatus (refs : List RefRow) (s : RefStatus) : ℕ :=
  (refs.filter fun r => decide (r.status = s)).length

/-! ## /process acceptance

Source: `handleProcess` in `src/do/OCRChunkDO.ts`. -/

/-- The `/process` request body (the `pi` identifiers of the chunk; the
worker's `handleProcess` stores one `pis` row per entry and reads nothing
else before fetching). -/
structure OCRChunkRequest where
  batch_id : Str
  chunk_id : Str
  pis : List Str
deriving DecidableEq

/-- The `/process` response. -/
inductive ProcessResponse where
  | accepted (chunk_id : Str) (total_pis : ℕ) (total_refs : ℕ)
  | alreadyProcessing (chunk_id : Str) (phase : Phase)
deriving DecidableEq

/-- The fresh state `handleProcess` inserts: phase `FETCHING`, zero counters,
zero backoff, one `pis` row per requested PI, an empty `refs` table. -/
def initialChunkState (req : OCRChunkRequest) (now : ℤ) : ChunkState :=
  { batch_id := req.batch_id
    chunk_id := req.chunk_id
    started_at := now
    completed_at := none
    phase := .FETCHING
    total_refs := 0
    completed_refs := 0
    failed_refs := 0
    skipped_refs := 0
    global_error := none
    global_retry_count := 0
    backoff := createBackoffState
    pis := req.pis.map fun p =>
      { pi := p, entity_updated := false, new_tip := none, new_version := none,
        entity_error := none }
    refs := [] }

/-- Source `handleProcess`: with live (non-terminal) prior state reply
`already_processing` and change nothing; otherwise clear the old tables,
seed the fresh state and reply `accepted` with the PI count and
`total_refs = 0`. -/
def handleProcess (req : OCRChunkRequest) (now : ℤ) (prior : Option ChunkState) :
    ProcessResponse × Option ChunkState :=
  match prior with
  | some st =>
    if st.phase = .ERROR ∨ st.phase = .DONE then
      (.accepted req.chunk_id req.pis.length 0, some (initialChunkState req now))
    else
      (.alreadyProcessing req.chunk_id st.phase, some st)
  | none => (.accepted req.chunk_id req.pis.length 0, some (initialChunkState req now))

/-! ## FETCH phase

Source: `fetchPhase` in `src/do/OCRChunkDO.ts`.  The contexts returned by
`fetchAllPIContexts` (one per PI, each listing the refs discovered in the
entity's manifest, with the serialized ref JSON) are an oracle input: they
are the product of external store reads.  The phase inserts one `refs` row
per discovered ref with status `'pending'`, sets `total_refs` to the number
of rows inserted in this run, and moves to `PROCESSING`. -/

/-- One ref discovered during FETCH, as inserted by `fetchPhase`. -/
structure FetchedRef where
  filename : Str
  cdn_url : Str
  cid : Str
  ref_data : Option Str
deriving DecidableEq

/-- The context fetched for one PI. -/
structure PIContext where
  pi : Str
  refs : List FetchedRef
deriving DecidableEq

/-- The `refs` row inserted for one fetched ref. -/
def mkRefRow (idv : ℕ) (piv : Str) (fr : FetchedRef) : RefRow :=
  { id := idv, pi := piv, filename := fr.filename, cdn_url := fr.cdn_url,
    original_cid := fr.cid, status := .pending, error := none, retry_count := 0,
    ref_data_json := fr.ref_data, result_cid := none, ocr_text_length := none }

/-- The next AUTOINCREMENT id of the `refs` table (ids start at 1). -/
def nextRefId (refs : List RefRow) : ℕ :=
  (refs.map fun r => r.id).foldr max 0 + 1

/-- Insert rows for the flattened `(pi, ref)` pairs with consecutive ids. -/
def rowsOf (startId : ℕ) : List (Str × FetchedRef) → List RefRow
  | [] => []
  | (piv, fr) :: rest => mkRefRow startId piv fr :: rowsOf (startId + 1) rest

/-- Flatten the fetched contexts into `(pi, ref)` pairs in insertion order. -/
def pairsOf (ctxs : List PIContext) : List (Str × FetchedRef) :=
  (ctxs.map fun c => c.refs.map fun fr => (c.pi, fr)).flatten

/-- Source `fetchPhase`: insert one pending row per fetched ref, set
`total_refs` to the number inserted in this run, move to `PROCESSING`. -/
def fetchPhase (ctxs : List PIContext) (st : ChunkState) : ChunkState :=
  let newRows := rowsOf (nextRefId st.refs) (pairsOf ctxs)
  { st with
    refs := st.refs ++ newRows
    total_refs := newRows.length
    phase := .PROCESSING }

/-! ## PROCESS phase

Source: `processPhase` and `processOneRef` in `src/do/OCRChunkDO.ts`.  The
settled outcome of `processOneRef(ref)` depends on external I/O (the cached
ref JSON, the OCR provider, the store upload); it is modelled by an oracle
`outcome : RefRow → RefOutcome` giving, for each dispatched ref row, how its
promise settled during this fire. -/

/-- How one `processOneRef` promise settles: fulfilled with
`{cid, skipped, textLength}`, or rejected with a `RateLimitError`, a
`PermanentOCRError`, or a generic (transient) `Error`. -/
inductive RefOutcome where
  | fulfilled (cid : Str) (skipped : Bool) (textLength : ℕ)
  | rateLimited (msg : Str)
  | permanent (msg : Str)
  | transient (msg : Str)
deriving DecidableEq

/-- The message `Failed after {maxRetries} retries: {msg}` written when the
transient retry cap is reached. -/
def transientCapMsg (maxRetries : ℕ) (msg : Str) : Str :=
  ("Failed after " ++ toString maxRetries ++ " retries: ").toList ++ msg

/-- The row update `processPhase` applies to one dispatched ref, given how
its promise settled (source lines handling `results[i]`): fulfilled rows
become `done`/`skipped` with the result cid; a `RateLimitError` re-queues the
row as `pending` with `retry_count + 1`; a `PermanentOCRError` sets `error`;
a transient error increments `retry_count` and errors the row out when the
new count reaches `MAX_RETRIES_PER_REF`. -/
def applyOutcome (maxRetries : ℕ) (r : RefRow) : RefOutcome → RefRow
  | .fulfilled cid skipped textLength =>
    { r with
      status := if skipped then .skipped else .done
      result_cid := some cid
      ocr_text_length := some textLength }
  | .rateLimited _ =>
    { r with
      status := .pending
      retry_count := r.retry_count + 1 }
  | .permanent msg =>
    { r with
      status := .error
      error := some msg }
  | .transient msg =>
    if maxRetries ≤ r.retry_count + 1 then
      { r with
        status := .error
        error := some (transientCapMsg maxRetries msg)
        retry_count := r.retry_count + 1 }
    else
      { r with
      status := .pending
      retry_count := r.retry_count + 1 }

/-- The counter deltas `(completedCount, failedCount, skippedCount)` of a
batch. -/
def batchDeltas (maxRetries : ℕ) (outcome : RefRow → RefOutcome)
    (selected : List RefRow) : ℕ × ℕ × ℕ :=
  selected.foldl
    (fun acc r =>
      match outcome r with
      | .fulfilled _ skipped _ =>
        if skipped then (acc.1, acc.2.1, acc.2.2 + 1) else (acc.1 + 1, acc.2.1, acc.2.2)
      | .rateLimited _ => acc
      | .permanent _ => (acc.1, acc.2.1 + 1, acc.2.2)
      | .transient _ =>
        if maxRetries ≤ r.retry_count + 1 then (acc.1, acc.2.1 + 1, acc.2.2) else acc)
    (0, 0, 0)

/-- The environment of one PROCESS fire: configuration, the time of the fire,
the jitter draw consumed if `onError` runs, and the settled outcome of each
dispatched ref. -/
structure ProcEnv where
  maxParallel : ℕ
  maxRetries : ℕ
  now : ℤ
  rand : ℚ
  outcome : RefRow → RefOutcome

/-- Source `processPhase`, one fire: exit early while in backoff; clear an
expired backoff; select up to `MAX_PARALLEL` pending rows (none left moves
the phase to `PUBLISHING`); mark them processing and dispatch them in
parallel; apply each settled outcome; add the counter deltas; run the backoff
`onError` when any ref in the batch was rate-limited, else `onSuccess`. -/
def processPhase (env : ProcEnv) (st : ChunkState) : ChunkState :=
  if isInBackoff env.now st.backoff then st
  else
    let backoff1 := clearBackoff st.backoff
    let selected := (st.refs.filter fun r => decide (r.status = .pending)).take env.maxParallel
    if selected.isEmpty then
      { st with phase := .PUBLISHING, backoff := backoff1 }
    else
      let selIds := selected.map fun r => r.id
      let refs' := st.refs.map fun r =>
        if selIds.contains r.id then applyOutcome env.maxRetries r (env.outcome r) else r
      let deltas := batchDeltas env.maxRetries env.outcome selected
      let hadRateLimit := selected.any fun r =>
        match env.outcome r with | .rateLimited _ => true | _ => false
      let backoff2 :=
        if hadRateLimit then onError env.now env.rand backoff1 else onSuccess backoff1
      { st with
        refs := refs'
        completed_refs := st.completed_refs + deltas.1
        failed_refs := st.failed_refs + deltas.2.1
        skipped_refs := st.skipped_refs + deltas.2.2
        backoff := backoff2 }

/-! ## PUBLISH phase

Source: `publishPhase` in `src/do/OCRChunkDO.ts`.  For each PI the body of
the `try` block performs external store calls (`getEntityTip` followed by
`appendVersionWithRetry`); the oracle `pub` gives the overall outcome of the
block for the PIs it is attempted for. -/

/-- The outcome of the per-PI publish attempt: the appended version's tip and
number, or the message of whatever error the attempt threw (tip resolution
failure, exhausted CAS retries, or any other store error). -/
inductive PubOutcome where
  | ok (tip : Str) (ver : ℕ)
  | fail (msg : Str)
deriving DecidableEq

/-- The completed components of a PI: `{ filename → result_cid }` over rows
with `status ∈ {done, skipped}` and a non-null `result_cid`. -/
def componentsFor (refs : List RefRow) (piv : Str) : List (Str × Str) :=
  (refs.filter fun r =>
    decide (r.pi = piv ∧ (r.status = .done ∨ r.status = .skipped) ∧ r.result_cid ≠ none)).map
    fun r => (r.filename, r.result_cid.getD [])

/-- The update `publishPhase` applies to one `pis` row: rows already updated
are not selected; a PI with no completed components is marked updated with no
store call; otherwise the publish outcome either records `new_tip` /
`new_version` or records `entity_error` — in every branch `entity_updated`
becomes true. -/
def publishPIRow (pub : Str → PubOutcome) (refs : List RefRow) (p : PIRow) : PIRow :=
  if p.entity_updated then p
  else if componentsFor refs p.pi = [] then { p with entity_updated := true }
  else
    match pub p.pi with
    | .ok tip ver =>
      { p with
        entity_updated := true
        new_tip := some tip
        new_version := some ver }
    | .fail msg =>
      { p with
        entity_updated := true
        entity_error := some msg }

/-- Source `publishPhase`, one fire: attempt every not-yet-updated PI, then
move to `DONE` and set `completed_at`. -/
def publishPhase (pub : Str → PubOutcome) (now : ℤ) (st : ChunkState) : ChunkState :=
  { st with
    pis := st.pis.map (publishPIRow pub st.refs)
    phase := .DONE
    completed_at := some now }

/-! ## Callback building

Source: `buildCallback` in `src/do/OCRChunkDO.ts`. -/

/-- A callback status (`'success' | 'partial' | 'error'`). -/
inductive CBStatus where
  | success
  | partialResult
  | error
deriving DecidableEq

/-- JavaScript truthiness of a nullable string column: present and
non-empty. -/
def truthyStr (o : Option Str) : Bool :=
  match o with
  | none => false
  | some s => !s.isEmpty

/-- JavaScript `s || undefined` on a nullable string. -/
def jsOrUndefined (o : Option Str) : Option Str :=
  match o with
  | none => none
  | some s => if s.isEmpty then none else some s

/-- JavaScript `n || undefined` on a nullable number (0 is falsy). -/
def jsOrUndefinedNat (o : Option ℕ) : Option ℕ :=
  match o with
  | none => none
  | some 0 => none
  | some n => some n

/-- JavaScript `(r.error as string) || 'Unknown error'`. -/
def errorOrUnknown (o : Option Str) : Str :=
  match o with
  | none => "Unknown error".toList
  | some s => if s.isEmpty then "Unknown error".toList else s

/-- One per-PI entry of the callback's `results` array. -/
structure PIResult where
  pi : Str
  status : CBStatus
  new_tip : Option Str
  new_version : Option ℕ
  refs_completed : ℕ
  refs_failed : ℕ
  failed_refs : Option (List (Str × Str))
deriving DecidableEq

/-- The callback's `summary` object. -/
structure CallbackSummary where
  total_refs : ℕ
  completed : ℕ
  failed : ℕ
  skipped : ℕ
  processing_time_ms : ℤ
deriving DecidableEq

/-- The callback payload POSTed to the orchestrator. -/
structure Callback where
  batch_id : Str
  chunk_id : Str
  status : CBStatus
  results : List PIResult
  summary : CallbackSummary
  error : Option Str
deriving DecidableEq

/-- `refs_completed` of a PI: its rows with status `done` or `skipped`. -/
def refsCompletedFor (refs : List RefRow) (piv : Str) : ℕ :=
  (refs.filter fun r => decide (r.pi = piv ∧ (r.status = .done ∨ r.status = .skipped))).length

/-- `refs_failed` of a PI: its rows with status `error`. -/
def refsFailedFor (refs : List RefRow) (piv : Str) : ℕ :=
  (refs.filter fun r => decide (r.pi = piv ∧ r.status = .error)).length

/-- The `failed_refs` detail list of a PI. -/
def failedRefListFor (refs : List RefRow) (piv : Str) : List (Str × Str) :=
  (refs.filter fun r => decide (r.pi = piv ∧ r.status = .error)).map
    fun r => (r.filename, errorOrUnknown r.error)

/-- The source's per-PI status chain: `entity_error` truthy gives `error`;
failures alongside completions give `partial`; failures with no completions
give `error`; anything else gives `success`. -/
def piStatusOf (entityError : Option Str) (refsFailed refsCompleted : ℕ) : CBStatus :=
  if truthyStr entityError then .error
  else if 0 < refsFailed ∧ 0 < refsCompleted then .partialResult
  else if 0 < refsFailed ∧ refsCompleted = 0 then .error
  else .success

/-- The source's overall status: every PI success gives `success`, every PI
error gives `error`, anything else gives `partial`. -/
def overallStatusOf (results : List PIResult) : CBStatus :=
  if results.all fun r => decide (r.status = .success) then .success
  else if results.all fun r => decide (r.status = .error) then .error
  else .partialResult

/-- The `results` entry `buildCallback` produces for one `pis` row. -/
def buildPIResult (refs : List RefRow) (p : PIRow) : PIResult :=
  let refsCompleted := refsCompletedFor refs p.pi
  let refsFailed := refsFailedFor refs p.pi
  let failedRefs := failedRefListFor refs p.pi
  { pi := p.pi
    status := piStatusOf p.entity_error refsFailed refsCompleted
    new_tip := jsOrUndefined p.new_tip
    new_version := jsOrUndefinedNat p.new_version
    refs_completed := refsCompleted
    refs_failed := refsFailed
    failed_refs := if failedRefs.isEmpty then none else some failedRefs }

/-- Source `buildCallback`: per-PI results from the `pis` and `refs` tables,
the overall status from the per-PI statuses, and the summary from the state
counters (`now` is the `Date.now()` used when `completed_at` is unset). -/
def buildCallback (now : ℤ) (st : ChunkState) : Callback :=
  let results := st.pis.map (buildPIResult st.refs)
  { batch_id := st.batch_id
    chunk_id := st.chunk_id
    status := overallStatusOf results
    results := results
    summary :=
      { total_refs := st.total_refs
        completed := st.completed_refs
        failed := st.failed_refs
        skipped := st.skipped_refs
        processing_time_ms := (st.completed_at.getD now) - st.started_at }
    error := none }

/-- The specification's per-PI status formula: `error` if `entity_error` is
present or all refs failed with none completed; `partial` if some completed
and some failed (with no entity error); `success` otherwise.  Written from
the spec's words, to be compared with the source-derived `piStatusOf`. -/
def piStatusSpec (entityError : Option Str) (refsFailed refsCompleted : ℕ) : CBStatus :=
  if truthyStr entityError = true ∨ (0 < refsFailed ∧ refsCompleted = 0) then .error
  else if 0 < refsFailed ∧ 0 < refsCompleted then .partialResult
  else .success

/-- The specification's overall status formula, written from the spec's
words. -/
def overallStatusSpec (results : List PIResult) : CBStatus :=
  if ∀ r ∈ results, r.status = .success then .success
  else if ∀ r ∈ results, r.status = .error then .error
  else .partialResult

/-! ## Callback delivery and global-error handling

Source: `sendCallback`, `sendErrorCallback`, `handleGlobalError`, `cleanup`
in `src/do/OCRChunkDO.ts`. -/

/-- Source `sendCallback` (DONE-phase fire): a 2xx response wipes the tables
(the worker is deleted, modelled as `none`); otherwise `global_retry_count`
below 3 is incremented with a 5 s re-fire, and after 3 failures the state is
preserved with no further alarm. -/
def sendCallbackStep (ok : Bool) (st : ChunkState) : Option ChunkState :=
  if ok then none
  else if st.global_retry_count < 3 then
    some { st with global_retry_count := st.global_retry_count + 1 }
  else some st

/-- Source `sendErrorCallback` (ERROR-phase fire), effect on the state, pis
and refs tables: a 2xx response wipes them; any failure leaves them
untouched (the debug-log append is modelled in `sendErrorCallbackDB`). -/
def sendErrorCallbackStep (ok : Bool) (st : ChunkState) : Option ChunkState :=
  if ok then none else some st

/-- Source `handleGlobalError`: increment `global_retry_count`; on reaching
`MAX_GLOBAL_RETRIES` record the error and enter the ERROR phase. -/
def handleGlobalError (maxGlobal : ℕ) (msg : Str) (st : ChunkState) : ChunkState :=
  let newRetry := st.global_retry_count + 1
  if maxGlobal ≤ newRetry then
    { st with
      phase := .ERROR
      global_error := some msg
      global_retry_count := newRetry }
  else { st with global_retry_count := newRetry }

/-! ## The alarm-driven phase engine

Source: `alarm` in `src/do/OCRChunkDO.ts`.  One fire reads the phase and runs
that phase's body; an exception thrown by the body is routed to
`handleGlobalError`.  All external nondeterminism of one fire is collected in
a `FireEnv`. -/

/-- Everything the outside world decides during one alarm fire. -/
structure FireEnv where
  contexts : List PIContext
  proc : ProcEnv
  pub : Str → PubOutcome
  now : ℤ
  callbackOk : Bool
  thrown : Option Str
  maxGlobalRetries : ℕ

/-- One alarm fire: dispatch on the phase, or absorb a thrown exception via
`handleGlobalError`.  `none` means the fire ended the worker's life (callback
delivered, tables wiped). -/
def alarmFire (e : FireEnv) (st : ChunkState) : Option ChunkState :=
  match e.thrown with
  | some msg => some (handleGlobalError e.maxGlobalRetries msg st)
  | none =>
    match st.phase with
    | .FETCHING => some (fetchPhase e.contexts st)
    | .PROCESSING => some (processPhase e.proc st)
    | .PUBLISHING => some (publishPhase e.pub e.now st)
    | .DONE => sendCallbackStep e.callbackOk st
    | .ERROR => sendErrorCallbackStep e.callbackOk st

/-- Run a sequence of alarm fires while the worker stays live. -/
def runFires : List FireEnv → ChunkState → Option ChunkState
  | [], st => some st
  | e :: es, st =>
    match alarmFire e st with
    | none => none
    | some st' => runFires es st'

/-! ## Error-callback fire over the full table set

Source: `sendErrorCallback`, `debugLog` and `cleanup` in
`src/do/OCRChunkDO.ts`, including the capped `debug_log` table. -/

/-- The four SQLite tables of the worker (`state` holds the pis and refs
tables in this model, `debug_log` its capped message list). -/
structure WorkerDB where
  state : Option ChunkState
  debug_log : List Str
deriving DecidableEq

/-- The debug-log cap: keep the most recent `MAX_DEBUG_LOG_ENTRIES = 100`
entries. -/
def capLog (l : List Str) : List Str :=
  l.drop (l.length - 100)

/-- Source `debugLog(msg)`: append and re-cap. -/
def dbDebugLog (msg : Str) (db : WorkerDB) : WorkerDB :=
  { db with debug_log := capLog (db.debug_log ++ [msg]) }

/-- Source `cleanup()`: wipe state, pis, refs and debug_log. -/
def cleanupDB : WorkerDB :=
  { state := none, debug_log := [] }

/-- The orchestrator's response to the error-callback POST: a 2xx, a non-2xx
status, or a network error. -/
inductive CallbackHttp where
  | ok2xx
  | non2xx (status : ℕ)
  | netError (msg : Str)
deriving DecidableEq

/-- The message logged when the error callback fails. -/
def errCallbackFailMsg : Str := "Error callback failed, state preserved".toList

/-- The observable effect of one ERROR-phase fire: the tables afterwards, the
number of callback POSTs made, the next alarm scheduled (none in every branch
of `sendErrorCallback`), and whether cleanup ran. -/
structure ErrorCallbackResult where
  db : WorkerDB
  attempts : ℕ
  alarmScheduled : Option ℤ
  cleaned : Bool
deriving DecidableEq

/-- Source `sendErrorCallback`: POST the callback once; on a 2xx run
`cleanup` and return; on a non-2xx or a network error fall through to the
`debugLog('Error callback failed, state preserved')` line — no alarm is
scheduled and no retry counter touched in either failure branch. -/
def sendErrorCallbackDB (resp : CallbackHttp) (db : WorkerDB) : ErrorCallbackResult :=
  match resp with
  | .ok2xx => { db := cleanupDB, attempts := 1, alarmScheduled := none, cleaned := true }
  | .non2xx _ =>
    { db := dbDebugLog errCallbackFailMsg db
      attempts := 1
      alarmScheduled := none
      cleaned := false }
  | .netError _ =>
    { db := dbDebugLog errCallbackFailMsg db
      attempts := 1
      alarmScheduled := none
      cleaned := false }

/-! ## Concrete fixtures

Small concrete states, environments and oracles used to evaluate the
definitions on explicit inputs. -/

/-- A single pending ref row with cached ref JSON. -/
def sampleRef : RefRow :=
  { id := 1
    pi := "P".toList
    filename := "img.jpg.ref.json".toList
    cdn_url := []
    original_cid := []
    status := .pending
    error := none
    retry_count := 0
    ref_data_json := some ("cached ref json".toList)
    result_cid := none
    ocr_text_length := none }

/-- A PROCESSING-phase state holding exactly `sampleRef`. -/
def oneRefState : ChunkState :=
  { batch_id := "b".toList
    chunk_id := "c".toList
    started_at := 0
    completed_at := none
    phase := .PROCESSING
    total_refs := 1
    completed_refs := 0
    failed_refs := 0
    skipped_refs := 0
    global_error := none
    global_retry_count := 0
    backoff := createBackoffState
    pis := []
    refs := [sampleRef] }

/-- A PROCESS fire at t=0 in which every dispatched ref is rate-limited. -/
def rlEnvA : ProcEnv :=
  { maxParallel := 20, maxRetries := 3, now := 0, rand := 0,
    outcome := fun _ => .rateLimited ("429 rate limit".toList) }

/-- A PROCESS fire at t=10000 (past the first backoff window) in which every
dispatched ref is rate-limited. -/
def rlEnvB : ProcEnv :=
  { maxParallel := 20, maxRetries := 3, now := 10000, rand := 0,
    outcome := fun _ => .rateLimited ("429 rate limit".toList) }

/-- A PROCESS fire at t=100000 in which every dispatched ref fails with a
transient error. -/
def trEnvC : ProcEnv :=
  { maxParallel := 20, maxRetries := 3, now := 100000, rand := 0,
    outcome := fun _ => .transient ("OCR failed: network".toList) }

/-- A PROCESS fire whose dispatched refs all fail transiently at t=0. -/
def trivialProcEnv : ProcEnv :=
  { maxParallel := 20, maxRetries := 3, now := 0, rand := 0,
    outcome := fun _ => .transient [] }

/-- `sampleRef` after one rejection re-queued it. -/
def rlRef1 : RefRow := { sampleRef with retry_count := 1 }

/-- `sampleRef` after two rejections re-queued it. -/
def rlRef2 : RefRow := { sampleRef with retry_count := 2 }

/-- `sampleRef` errored out at the cap after its third rejection. -/
def capRef3 : RefRow :=
  { sampleRef with
    status := .error
    retry_count := 3
    error := some (transientCapMsg 3 ("OCR failed: network".toList)) }

/-- `oneRefState` after the first rate-limited fire at t=0 with jitter 0. -/
def rlState1 : ChunkState :=
  { oneRefState with
    refs := [rlRef1]
    backoff := { consecutive_errors := 1, backoff_until := some 750 } }

/-- `rlState1` after the second rate-limited fire at t=10000 with jitter 0. -/
def rlState2 : ChunkState :=
  { oneRefState with
    refs := [rlRef2]
    backoff := { consecutive_errors := 2, backoff_until := some 11500 } }

/-- `rlState2` after the transient-failure fire at t=100000. -/
def capState3 : ChunkState :=
  { oneRefState with
    refs := [capRef3]
    failed_refs := 1
    backoff := { consecutive_errors := 0, backoff_until := none } }

/-- A ref row that already errored out permanently. -/
def errRef : RefRow :=
  { sampleRef with status := .error, error := some ("Permanent OCR failure".toList) }

/-- A PROCESSING-phase state holding exactly the errored `errRef`. -/
def oneErrRefState : ChunkState :=
  { oneRefState with refs := [errRef] }

/-- A URL that embeds the CDN needle away from the canonical position. -/
def oddAssetUrl : Str := "xcdn.arke.institute/asset/A".toList

/-- A publish oracle whose every attempt fails with a store error. -/
def failingPub : Str → PubOutcome := fun _ => .fail ("store down".toList)

/-- A completed ref row of PI `P` carrying a result cid. -/
def doneRef : RefRow :=
  { id := 1
    pi := "P".toList
    filename := "img.jpg.ref.json".toList
    cdn_url := []
    original_cid := []
    status := .done
    error := none
    retry_count := 0
    ref_data_json := some ("cached ref json".toList)
    result_cid := some ("cid1".toList)
    ocr_text_length := some 5 }

/-- A PUBLISHING-phase state with one not-yet-updated PI owning one completed
ref. -/
def pubDemoState : ChunkState :=
  { batch_id := "b".toList
    chunk_id := "c".toList
    started_at := 0
    completed_at := none
    phase := .PUBLISHING
    total_refs := 1
    completed_refs := 1
    failed_refs := 0
    skipped_refs := 0
    global_error := none
    global_retry_count := 0
    backoff := createBackoffState
    pis := [{ pi := "P".toList, entity_updated := false, new_tip := none,
              new_version := none, entity_error := none }]
    refs := [doneRef] }

/-- Store oracle: the first append attempt gets a 409, later ones succeed. -/
def conflictThenOkHttp : ℕ → AppendHttpResp := fun i =>
  if i = 0 then .errStatus 409 ("tip moved".toList) else .ok { ver := 2, tip := "tip2".toList }

/-- Tip-resolve oracle answering a fresh tip to every call. -/
def freshTipResolver : ℕ → Except Str Str := fun _ => .ok ("freshtip".toList)

/-- A fire environment with empty contexts and failing external calls. -/
def sampleFireEnv : FireEnv :=
  { contexts := [], proc := trivialProcEnv, pub := failingPub, now := 0,
    callbackOk := false, thrown := none, maxGlobalRetries := 5 }

/-- The `/process` request with an empty `pis` list. -/
def emptyPIsRequest : OCRChunkRequest :=
  { batch_id := "b".toList, chunk_id := "c".toList, pis := [] }

/-- A live worker database in the ERROR phase with an empty debug log. -/
def errorPhaseDB : WorkerDB :=
  { state := some oneRefState, debug_log := [] }

/-! ## Claim C7: the backoff window -/

/-- `jsRound` agrees with the floor of `x + 1/2`. -/
theorem jsRound_eq_floor (x : ℚ) : jsRound x = ⌊x + 1 / 2⌋ := by
  rw [jsRound, Rat.floor_def', ← Rat.floor_def]

/-- Claim C7: for every call to `onError`, with `k` the incremented
`consecutive_errors` count and for every jitter draw in `[0,1)`, the backoff
window satisfies `backoff_until - now ∈ [0.75, 1.25] · min(60000,
1000·2^min(k-1,5))` milliseconds. -/
theorem onError_backoff_window (st : BackoffState) (now : ℤ) (rand : ℚ)
    (h0 : 0 ≤ rand) (h1 : rand < 1) :
    ∃ u, (onError now rand st).backoff_until = some u ∧
      (3 / 4 : ℚ) *
          min 60000 (1000 * 2 ^ min ((onError now rand st).consecutive_errors - 1) 5) ≤
        ((u - now : ℤ) : ℚ) ∧
      ((u - now : ℤ) : ℚ) ≤
        (5 / 4 : ℚ) *
          min 60000 (1000 * 2 ^ min ((onError now rand st).consecutive_errors - 1) 5) := by
  have hk : (onError now rand st).consecutive_errors = st.consecutive_errors + 1 := rfl
  set j : ℕ := min st.consecutive_errors 5 with hj
  have hkj : min ((onError now rand st).consecutive_errors - 1) 5 = j := by
    rw [hk]
    simp [hj]
  set d : ℚ := 1000 * 2 ^ j with hd
  have hd0 : (0 : ℚ) < d := by positivity
  have hd60 : d ≤ 60000 := by
    have hje : j ≤ 5 := min_le_right _ _
    have h2 : (2 : ℚ) ^ j ≤ 2 ^ 5 := pow_le_pow_right₀ (by norm_num) hje
    rw [hd]
    nlinarith
  have hmin : min d (60000 : ℚ) = d := min_eq_left hd60
  have huntil :
      (onError now rand st).backoff_until =
        some (now + jsRound (min d 60000 + min d 60000 * (1 / 4) * (rand * 2 - 1))) := rfl
  rw [hmin] at huntil
  set jit : ℚ := d * (1 / 4) * (rand * 2 - 1) with hjit
  have hjlo : -(d / 4) ≤ jit := by
    rw [hjit]
    nlinarith [mul_nonneg hd0.le h0]
  have hjhi : jit < d / 4 := by
    rw [hjit]
    nlinarith [mul_pos hd0 (by linarith : (0 : ℚ) < 1 - rand)]
  have hmin' : min (60000 : ℚ) (1000 * 2 ^ j) = d := by
    rw [hd, min_eq_right]
    rw [← hd]
    exact hd60
  have hcastlo : ((750 * 2 ^ j : ℤ) : ℚ) = (3 / 4) * d := by
    push_cast
    rw [hd]
    ring
  have hcasthi : ((1250 * 2 ^ j : ℤ) : ℚ) = (5 / 4) * d := by
    push_cast
    rw [hd]
    ring
  have hflo : (750 * 2 ^ j : ℤ) ≤ jsRound (d + jit) := by
    rw [jsRound_eq_floor]
    apply Int.le_floor.mpr
    rw [hcastlo]
    nlinarith
  have hfhi : jsRound (d + jit) ≤ (1250 * 2 ^ j : ℤ) := by
    have hlt : jsRound (d + jit) < 1250 * 2 ^ j + 1 := by
      rw [jsRound_eq_floor]
      apply Int.floor_lt.mpr
      push_cast
      nlinarith
    exact Int.lt_add_one_iff.mp hlt
  refine ⟨now + jsRound (d + jit), huntil, ?_, ?_⟩
  · rw [hkj, hmin']
    have hsub : ((now + jsRound (d + jit) - now : ℤ) : ℚ) = ((jsRound (d + jit) : ℤ) : ℚ) := by
      push_cast
      ring
    rw [hsub, ← hcastlo]
    exact_mod_cast hflo
  · rw [hkj, hmin']
    have hsub : ((now + jsRound (d + jit) - now : ℤ) : ℚ) = ((jsRound (d + jit) : ℤ) : ℚ) := by
      push_cast
      ring
    rw [hsub, ← hcasthi]
    exact_mod_cast hfhi

/-- Witness for C7: the backoff window bound evaluated after the first error
at `now = 0` with jitter draw `0`. -/
theorem onError_backoff_window_witness :
    ∃ u, (onError 0 0 createBackoffState).backoff_until = some u ∧
      (3 / 4 : ℚ) *
          min 60000 (1000 * 2 ^ min ((onError 0 0 createBackoffState).consecutive_errors - 1) 5) ≤
        ((u - 0 : ℤ) : ℚ) ∧
      ((u - 0 : ℤ) : ℚ) ≤
        (5 / 4 : ℚ) *
          min 60000 (1000 * 2 ^ min ((onError 0 0 createBackoffState).consecutive_errors - 1) 5) :=
  onError_backoff_window createBackoffState 0 0 (by norm_num) (by norm_num)

/-! ## Claim C8: the URL variant rule

Helper lemmas about substring search and the regex scan, then the claim. -/

/-- An empty needle is contained in every haystack. -/
theorem containsSub_nil (h : Str) : containsSub [] h = true := by
  cases h with
  | nil => rfl
  | cons c t => simp [containsSub, List.isPrefixOf]

/-- A list is a prefix of itself followed by anything. -/
theorem isPrefixOf_append_self (l r : Str) : l.isPrefixOf (l ++ r) = true := by
  induction l with
  | nil => simp [List.isPrefixOf]
  | cons a as ih => simp [List.isPrefixOf, ih]

/-- A needle is contained in itself followed by anything. -/
theorem containsSub_self_append (n r : Str) : containsSub n (n ++ r) = true := by
  cases n with
  | nil => exact containsSub_nil _
  | cons c t => simp [containsSub, isPrefixOf_append_self]

/-- Containment is preserved by prepending to the haystack. -/
theorem containsSub_append_left (pre n h : Str) (hc : containsSub n h = true) :
    containsSub n (pre ++ h) = true := by
  induction pre with
  | nil => simpa using hc
  | cons c t ih => simp [containsSub, ih]

/-- If `n` is a prefix of `s ++ l` then the first `|s|` characters of `n`
are a prefix of `s`: a prefix test can only fail earlier on a longer text. -/
theorem isPrefixOf_take_of_append (n s l : Str) (h : n.isPrefixOf (s ++ l) = true) :
    (n.take s.length).isPrefixOf s = true := by
  induction s generalizing n with
  | nil => simp [List.isPrefixOf]
  | cons a s' ih =>
    cases n with
    | nil => simp [List.isPrefixOf]
    | cons b n' =>
      simp only [List.cons_append, List.isPrefixOf, Bool.and_eq_true, beq_iff_eq] at h
      simp only [List.length_cons, List.take_succ_cons, List.isPrefixOf, Bool.and_eq_true,
        beq_iff_eq]
      exact ⟨h.1, ih n' h.2⟩

/-- If the concrete check of `noAssetStart` fails on `s`, the regex cannot
match at `s` whatever follows it. -/
theorem matchAssetAt_none_of_check (s l : Str)
    (h : (slashAsset.take s.length).isPrefixOf s = false) :
    matchAssetAt (s ++ l) = none := by
  have hf : slashAsset.isPrefixOf (s ++ l) = false := by
    cases hb : slashAsset.isPrefixOf (s ++ l) with
    | false => rfl
    | true => exact absurd (isPrefixOf_take_of_append _ _ _ hb) (by simp [h])
  simp [matchAssetAt, hf]

/-- `noAssetStart` certifies its per-suffix check for every non-empty
suffix. -/
theorem noAssetStart_check (s t : Str) (h : noAssetStart (t ++ s) = true) (hs : s ≠ []) :
    (slashAsset.take s.length).isPrefixOf s = false := by
  induction t with
  | nil =>
    cases s with
    | nil => exact absurd rfl hs
    | cons c s' =>
      simp only [List.nil_append, noAssetStart, Bool.and_eq_true, Bool.not_eq_eq_eq_not,
        Bool.not_true] at h
      exact h.1
  | cons a t' ih =>
    simp only [List.cons_append, noAssetStart, Bool.and_eq_true] at h
    exact ih h.2

/-- The regex search skips over a prefix in which no position can start a
match. -/
theorem findAssetId_append_no_match (pre l : Str)
    (h : ∀ s t : Str, t ++ s = pre → s ≠ [] → matchAssetAt (s ++ l) = none) :
    findAssetId (pre ++ l) = findAssetId l := by
  induction pre with
  | nil => simp
  | cons c pre' ih =>
    have h0 : matchAssetAt ((c :: pre') ++ l) = none := h (c :: pre') [] rfl (by simp)
    rw [List.cons_append] at h0 ⊢
    rw [findAssetId, h0]
    exact ih fun s t hts hs => h s (c :: t) (by rw [← hts]; rfl) hs

/-- At a `/asset/` occurrence followed by an `[A-Z0-9]` character, the regex
matches and captures the maximal `[A-Z0-9]` run. -/
theorem matchAssetAt_at_asset (rest : Str) (c : Char) (hh : rest.head? = some c)
    (hc : isUpperAlnum c = true) :
    matchAssetAt (slashAsset ++ rest) = some (rest.takeWhile isUpperAlnum) := by
  cases rest with
  | nil => simp at hh
  | cons a t =>
    have ha : a = c := by simpa using hh
    subst ha
    have hdrop : (slashAsset ++ a :: t).drop 7 = a :: t := by
      rw [show (7 : ℕ) = slashAsset.length from rfl]
      simp
    simp [matchAssetAt, isPrefixOf_append_self, hdrop, List.takeWhile, hc]

/-- The regex search over a canonical CDN URL captures the maximal
`[A-Z0-9]` run right after `https://cdn.arke.institute/asset/`. -/
theorem findAssetId_canonical (rest : Str) (c : Char) (hh : rest.head? = some c)
    (hc : isUpperAlnum c = true) :
    findAssetId (assetUrlPrefix ++ rest) = some (rest.takeWhile isUpperAlnum) := by
  have hsplit : assetUrlPrefix = cdnHost ++ slashAsset := by decide
  rw [hsplit, List.append_assoc]
  rw [findAssetId_append_no_match cdnHost _ ?_]
  · show findAssetId ('/' :: ("asset/".toList ++ rest)) = some (rest.takeWhile isUpperAlnum)
    rw [findAssetId]
    rw [show ('/' :: ("asset/".toList ++ rest)) = slashAsset ++ rest from rfl]
    rw [matchAssetAt_at_asset rest c hh hc]
  · intro s t hts hs
    refine matchAssetAt_none_of_check s _ (noAssetStart_check s t ?_ hs)
    rw [hts]
    decide

/-- `takeWhile` keeps a list all of whose characters satisfy the
predicate. -/
theorem takeWhile_of_all (l : Str) (h : ∀ c ∈ l, isUpperAlnum c = true) :
    l.takeWhile isUpperAlnum = l := by
  induction l with
  | nil => rfl
  | cons a as ih =>
    simp only [List.takeWhile]
    rw [h a (by simp)]
    simp only [List.cons.injEq, true_and]
    exact ih fun c hc => h c (by simp [hc])

/-- `takeWhile` over an all-satisfying list stops exactly at a following
slash. -/
theorem takeWhile_append_slash (l t : Str) (h : ∀ c ∈ l, isUpperAlnum c = true) :
    (l ++ '/' :: t).takeWhile isUpperAlnum = l := by
  induction l with
  | nil => simp [List.takeWhile, show isUpperAlnum '/' = false from rfl]
  | cons a as ih =>
    simp only [List.cons_append, List.takeWhile]
    rw [h a (by simp)]
    simp only [List.cons.injEq, true_and]
    exact ih fun c hc => h c (by simp [hc])

/-- Claim C8 (amended): a canonical CDN asset URL
`https://cdn.arke.institute/asset/{ID}(/variant)?` is rewritten to the
`/medium` primary with the bare asset URL as fallback; a URL that does not
contain `cdn.arke.institute/asset/`, or in which the regex finds no asset
id, is passed through unchanged with no fallback. -/
theorem buildOCRImageUrl_variant_rule :
    (∀ assetId variant, assetId ≠ [] →
        (∀ c ∈ assetId, isUpperAlnum c = true) →
        (∀ v, variant = some v → v ≠ [] ∧ ∀ c ∈ v, isWordChar c = true) →
        buildOCRImageUrl (specAssetUrl assetId variant) =
          { primary := mediumUrlFor assetId, fallback := some (baseUrlFor assetId) })
    ∧ (∀ u, containsSub cdnNeedle u = false →
        buildOCRImageUrl u = { primary := u, fallback := none })
    ∧ (∀ u, findAssetId u = none →
        buildOCRImageUrl u = { primary := u, fallback := none }) := by
  refine ⟨?_, ?_, ?_⟩
  · intro assetId variant hne hall hv
    obtain ⟨a, id', rfl⟩ : ∃ a id', assetId = a :: id' := by
      cases assetId with
      | nil => exact absurd rfl hne
      | cons a id' => exact ⟨a, id', rfl⟩
    have hcontains : containsSub cdnNeedle (specAssetUrl (a :: id') variant) = true := by
      have hsplit : assetUrlPrefix = "https://".toList ++ cdnNeedle := by decide
      unfold specAssetUrl
      rw [hsplit, List.append_assoc, List.append_assoc]
      exact containsSub_append_left _ _ _ (containsSub_self_append _ _)
    have hfind : findAssetId (specAssetUrl (a :: id') variant) = some (a :: id') := by
      unfold specAssetUrl
      rw [List.append_assoc]
      rw [findAssetId_canonical _ a (by cases variant <;> simp) (hall a (by simp))]
      cases variant with
      | none =>
        simp only [List.append_nil]
        rw [takeWhile_of_all _ hall]
      | some vv =>
        rw [takeWhile_append_slash _ _ hall]
    simp [buildOCRImageUrl, hcontains, hfind]
  · intro u hc
    simp [buildOCRImageUrl, hc]
  · intro u hf
    by_cases hc : containsSub cdnNeedle u = true
    · simp [buildOCRImageUrl, hc, hf]
    · simp [buildOCRImageUrl, hc]

/-- Witness for C8: the rule evaluated on the canonical URL
`https://cdn.arke.institute/asset/A/medium` and on a non-CDN URL. -/
theorem buildOCRImageUrl_variant_rule_witness :
    buildOCRImageUrl (specAssetUrl ['A'] (some ("medium".toList))) =
      { primary := mediumUrlFor ['A'], fallback := some (baseUrlFor ['A']) }
    ∧ buildOCRImageUrl ("https://example.com/x.jpg".toList) =
      { primary := "https://example.com/x.jpg".toList, fallback := none } :=
  ⟨buildOCRImageUrl_variant_rule.1 ['A'] (some ("medium".toList)) (by decide) (by decide)
      (by intro v0 h; cases h; exact ⟨by decide, by decide⟩),
    buildOCRImageUrl_variant_rule.2.1 _ (by decide)⟩

/-- Counterexample for C8 as stated: `xcdn.arke.institute/asset/A` does not
match the CDN asset pattern, yet `buildOCRImageUrl` does not return it
unchanged without fallback (the substring test and the unanchored regex
still fire). -/
theorem buildOCRImageUrl_counterexample :
    ¬ matchesCDNAssetPattern oddAssetUrl
    ∧ buildOCRImageUrl oddAssetUrl ≠ { primary := oddAssetUrl, fallback := none } := by
  constructor
  · rintro ⟨assetId, variant, hne, hall, hv, heq⟩
    have hx : List.headD oddAssetUrl ' ' = 'x' := rfl
    have hy : List.headD (specAssetUrl assetId variant) ' ' = 'h' := rfl
    rw [heq, hy] at hx
    exact absurd hx (by decide)
  · decide

/-! ## Claim C3: the CAS retry loop -/

/-- An `append` event contributes its tip to the tip trace. -/
theorem appendTipsOf_cons_append (t : Str) (es : List AVEvent) :
    appendTipsOf (.append t :: es) = t :: appendTipsOf es := rfl

/-- A `resolveTip` event contributes nothing to the tip trace. -/
theorem appendTipsOf_cons_resolve (es : List AVEvent) :
    appendTipsOf (.resolveTip :: es) = appendTipsOf es := rfl

/-- A `sleep` event contributes nothing to the tip trace. -/
theorem appendTipsOf_cons_sleep (ms : ℕ) (es : List AVEvent) :
    appendTipsOf (.sleep ms :: es) = appendTipsOf es := rfl

/-- The empty trace has no tips. -/
theorem appendTipsOf_nil : appendTipsOf [] = [] := rfl

/-- An `append` event contributes nothing to the sleep trace. -/
theorem sleepsOf_cons_append (t : Str) (es : List AVEvent) :
    sleepsOf (.append t :: es) = sleepsOf es := rfl

/-- A `resolveTip` event contributes nothing to the sleep trace. -/
theorem sleepsOf_cons_resolve (es : List AVEvent) :
    sleepsOf (.resolveTip :: es) = sleepsOf es := rfl

/-- A `sleep` event contributes its duration to the sleep trace. -/
theorem sleepsOf_cons_sleep (ms : ℕ) (es : List AVEvent) :
    sleepsOf (.sleep ms :: es) = ms :: sleepsOf es := rfl

/-- The empty trace has no sleeps. -/
theorem sleepsOf_nil : sleepsOf [] = [] := rfl

/-- The retry-loop contract holds of every run of `appendVersionLoop`. -/
theorem appendVersionLoop_spec (http : ℕ → AppendHttpResp)
    (resolve : ℕ → Except Str Str) :
    ∀ (fuel attempt : ℕ) (tip : Str) (lastErr : Option AVError),
      AVLoopRunSpec http resolve attempt tip
        (appendVersionLoop http resolve fuel attempt tip lastErr) fuel := by
  intro fuel
  induction fuel with
  | zero =>
    intro attempt tip lastErr
    refine ⟨?_, ?_, ?_, ?_, ?_⟩ <;>
      simp [appendVersionLoop, appendTipsOf_nil, sleepsOf_nil]
  | succ fuel ih =>
    intro attempt tip lastErr
    rcases hres : http attempt with r | ⟨s, body⟩
    · -- the append attempt succeeded
      have hout : appendVersionLoop http resolve (fuel + 1) attempt tip lastErr =
          (.ok r, [.append tip]) := by
        simp [appendVersionLoop, appendVersionClassify, hres]
      rw [AVLoopRunSpec, hout]
      simp only [appendTipsOf_cons_append, appendTipsOf_nil, sleepsOf_cons_append, sleepsOf_nil,
        List.length_cons, List.length_nil]
      refine ⟨by omega, fun _ => by simp, ?_, by simp, ?_⟩
      · intro i hi
        omega
      · intro i s2 b2 hhttp hs2 hlt
        have hi0 : i = 0 := by omega
        subst hi0
        rw [Nat.add_zero, hres] at hhttp
        exact absurd hhttp (by simp)
    · by_cases hs409 : s = 409
      · subst hs409
        rcases hresf : resolve attempt with tipMsg | newTip
        · -- CAS conflict but the fresh-tip fetch failed
          have hout : appendVersionLoop http resolve (fuel + 1) attempt tip lastErr =
              (.error (.tipFetch tipMsg), [.append tip, .resolveTip]) := by
            simp [appendVersionLoop, appendVersionClassify, hres, hresf]
          rw [AVLoopRunSpec, hout]
          simp only [appendTipsOf_cons_append, appendTipsOf_cons_resolve, appendTipsOf_nil,
            sleepsOf_cons_append, sleepsOf_cons_resolve, sleepsOf_nil, List.length_cons,
            List.length_nil]
          refine ⟨by omega, fun _ => by simp, ?_, by simp, ?_⟩
          · intro i hi
            omega
          · intro i s2 b2 hhttp hs2 hlt
            have hi0 : i = 0 := by omega
            subst hi0
            rw [Nat.add_zero, hres] at hhttp
            simp only [AppendHttpResp.errStatus.injEq] at hhttp
            exact absurd hhttp.1.symm hs2
        · -- CAS conflict, fresh tip resolved: retry
          have hout : appendVersionLoop http resolve (fuel + 1) attempt tip lastErr =
              ((appendVersionLoop http resolve fuel (attempt + 1) newTip
                  (some (.cas body))).1,
                .append tip :: .resolveTip :: .sleep (100 * (attempt + 1)) ::
                  (appendVersionLoop http resolve fuel (attempt + 1) newTip
                    (some (.cas body))).2) := by
            simp [appendVersionLoop, appendVersionClassify, hres, hresf]
          obtain ⟨ih1, ih2, ih3, ih4, ih5⟩ := ih (attempt + 1) newTip (some (.cas body))
          rw [AVLoopRunSpec, hout]
          simp only [appendTipsOf_cons_append, appendTipsOf_cons_resolve,
            appendTipsOf_cons_sleep, sleepsOf_cons_append, sleepsOf_cons_resolve,
            sleepsOf_cons_sleep, List.length_cons]
          refine ⟨by omega, fun _ => by simp, ?_, ?_, ?_⟩
          · intro i hi
            cases i with
            | zero =>
              refine ⟨⟨body, by rw [Nat.add_zero]; exact hres⟩,
                newTip, by rw [Nat.add_zero]; exact hresf, ?_⟩
              have h0 : 0 <
                  (appendTipsOf (appendVersionLoop http resolve fuel (attempt + 1) newTip
                    (some (.cas body))).2).length := by omega
              simpa using ih2 h0
            | succ j =>
              have hj : j + 1 <
                  (appendTipsOf (appendVersionLoop http resolve fuel (attempt + 1) newTip
                    (some (.cas body))).2).length := by omega
              obtain ⟨⟨b, hb⟩, t, ht, htt⟩ := ih3 j hj
              refine ⟨⟨b, ?_⟩, t, ?_, ?_⟩
              · rw [show attempt + (j + 1) = attempt + 1 + j from by omega]
                exact hb
              · rw [show attempt + (j + 1) = attempt + 1 + j from by omega]
                exact ht
              · simpa using htt
          · rw [ih4, List.range_succ_eq_map, List.map_cons, List.map_map]
            have hfun : ((fun i => 100 * (attempt + i + 1)) ∘ Nat.succ) =
                fun i => 100 * (attempt + 1 + i + 1) := by
              funext i
              simp [Function.comp, Nat.succ_eq_add_one]
              ring
            rw [hfun]
            simp [List.length_map]
          · intro i s2 b2 hhttp hs2 hlt
            cases i with
            | zero =>
              rw [Nat.add_zero, hres] at hhttp
              simp only [AppendHttpResp.errStatus.injEq] at hhttp
              exact absurd hhttp.1.symm hs2
            | succ j =>
              rw [show attempt + (j + 1) = attempt + 1 + j from by omega] at hhttp
              have hj : j <
                  (appendTipsOf (appendVersionLoop http resolve fuel (attempt + 1) newTip
                    (some (.cas body))).2).length := by omega
              obtain ⟨hlen, hres1⟩ := ih5 j s2 b2 hhttp hs2 hj
              exact ⟨by omega, hres1⟩
      · -- a non-conflict store error aborts the loop at once
        have hout : appendVersionLoop http resolve (fuel + 1) attempt tip lastErr =
            (.error (.http s body), [.append tip]) := by
          simp [appendVersionLoop, appendVersionClassify, hres, hs409]
        rw [AVLoopRunSpec, hout]
        simp only [appendTipsOf_cons_append, appendTipsOf_nil, sleepsOf_cons_append,
          sleepsOf_nil, List.length_cons, List.length_nil]
        refine ⟨by omega, fun _ => by simp, ?_, by simp, ?_⟩
        · intro i hi
          omega
        · intro i s2 b2 hhttp hs2 hlt
          have hi0 : i = 0 := by omega
          subst hi0
          rw [Nat.add_zero, hres] at hhttp
          simp only [AppendHttpResp.errStatus.injEq] at hhttp
          exact ⟨rfl, by rw [hhttp.1, hhttp.2]⟩

/-- Claim C3: `appendVersionWithRetry` makes at most 3 `appendVersion`
attempts; it retries only when the store answered HTTP 409 (a CAS conflict),
re-resolving the entity's fresh tip before each retry (the retry's
`expect_tip` is exactly the resolved tip); it sleeps 100 ms, 200 ms, 300 ms
after successive conflicting attempts; and any non-conflict error aborts the
loop immediately, surfacing that error with no further attempt. -/
theorem appendVersionWithRetry_cas_policy (http : ℕ → AppendHttpResp)
    (resolve : ℕ → Except Str Str) (tip0 : Str) :
    (appendTipsOf (appendVersionWithRetry http resolve tip0).2).length ≤ 3
    ∧ (0 < (appendTipsOf (appendVersionWithRetry http resolve tip0).2).length →
        (appendTipsOf (appendVersionWithRetry http resolve tip0).2)[0]? = some tip0)
    ∧ (∀ i, i + 1 < (appendTipsOf (appendVersionWithRetry http resolve tip0).2).length →
        (∃ body, http i = .errStatus 409 body)
        ∧ ∃ t, resolve i = .ok t ∧
            (appendTipsOf (appendVersionWithRetry http resolve tip0).2)[i + 1]? = some t)
    ∧ sleepsOf (appendVersionWithRetry http resolve tip0).2 =
        (List.range (sleepsOf (appendVersionWithRetry http resolve tip0).2).length).map
          (fun i => 100 * (i + 1))
    ∧ (∀ i s body, http i = .errStatus s body → s ≠ 409 →
        i < (appendTipsOf (appendVersionWithRetry http resolve tip0).2).length →
        (appendTipsOf (appendVersionWithRetry http resolve tip0).2).length = i + 1
        ∧ (appendVersionWithRetry http resolve tip0).1 = Except.error (.http s body)) := by
  obtain ⟨h1, h2, h3, h4, h5⟩ := appendVersionLoop_spec http resolve 3 0 tip0 none
  refine ⟨h1, h2, ?_, ?_, ?_⟩
  · intro i hi
    simpa using h3 i hi
  · simpa using h4
  · intro i s body hhttp hs hlt
    exact h5 i s body (by simpa using hhttp) hs hlt

/-- Witness for C3: the policy evaluated on a store that answers 409 once
and then succeeds — two POSTs, one fresh-tip resolve, one 100 ms sleep. -/
theorem appendVersionWithRetry_cas_policy_witness :
    (appendTipsOf (appendVersionWithRetry conflictThenOkHttp freshTipResolver
        ("tip1".toList)).2).length ≤ 3
    ∧ (∃ t, freshTipResolver 0 = .ok t ∧
        (appendTipsOf (appendVersionWithRetry conflictThenOkHttp freshTipResolver
          ("tip1".toList)).2)[0 + 1]? = some t) :=
  ⟨(appendVersionWithRetry_cas_policy conflictThenOkHttp freshTipResolver ("tip1".toList)).1,
    ((appendVersionWithRetry_cas_policy conflictThenOkHttp freshTipResolver
      ("tip1".toList)).2.2.1 0 (by decide)).2⟩

/-! ## Claim C2: callback statuses -/

/-- The source's per-PI status chain computes the spec's formula. -/
theorem piStatus_agrees (eo : Option Str) (f c : ℕ) :
    piStatusOf eo f c = piStatusSpec eo f c := by
  unfold piStatusOf piStatusSpec
  split_ifs <;> first | rfl | omega | simp_all

/-- The source's overall status computes the spec's formula. -/
theorem overallStatus_agrees (rs : List PIResult) :
    overallStatusOf rs = overallStatusSpec rs := by
  unfold overallStatusOf overallStatusSpec
  have h1 : ((rs.all fun r => decide (r.status = .success)) = true) ↔
      ∀ r ∈ rs, r.status = .success := by simp [List.all_eq_true]
  have h2 : ((rs.all fun r => decide (r.status = .error)) = true) ↔
      ∀ r ∈ rs, r.status = .error := by simp [List.all_eq_true]
  split_ifs <;> simp_all

/-- Claim C2: in every callback built by `buildCallback`, each PI's status is
`error` if its `entity_error` is set or all of its refs failed with none
completed, `partial` if some completed and some failed with no entity error,
and `success` otherwise; and the overall status is `success` if every PI is
success, `error` if every PI is error, else `partial`. -/
theorem buildCallback_status_rule (now : ℤ) (st : ChunkState) :
    (buildCallback now st).results = st.pis.map (fun p =>
      { pi := p.pi
        status := piStatusSpec p.entity_error (refsFailedFor st.refs p.pi)
                    (refsCompletedFor st.refs p.pi)
        new_tip := jsOrUndefined p.new_tip
        new_version := jsOrUndefinedNat p.new_version
        refs_completed := refsCompletedFor st.refs p.pi
        refs_failed := refsFailedFor st.refs p.pi
        failed_refs := if (failedRefListFor st.refs p.pi).isEmpty then none
                       else some (failedRefListFor st.refs p.pi) })
    ∧ (buildCallback now st).status =
        overallStatusSpec ((buildCallback now st).results) := by
  constructor
  · show st.pis.map (buildPIResult st.refs) = _
    have hfun : ∀ p, buildPIResult st.refs p =
        { pi := p.pi
          status := piStatusSpec p.entity_error (refsFailedFor st.refs p.pi)
                      (refsCompletedFor st.refs p.pi)
          new_tip := jsOrUndefined p.new_tip
          new_version := jsOrUndefinedNat p.new_version
          refs_completed := refsCompletedFor st.refs p.pi
          refs_failed := refsFailedFor st.refs p.pi
          failed_refs := if (failedRefListFor st.refs p.pi).isEmpty then none
                         else some (failedRefListFor st.refs p.pi) } := by
      intro p
      simp only [buildPIResult]
      rw [piStatus_agrees]
    exact List.map_congr_left fun p _ => hfun p
  · have hstat : (buildCallback now st).status =
        overallStatusOf ((buildCallback now st).results) := rfl
    rw [hstat]
    exact overallStatus_agrees _

/-! ## Claim C4: publish makes forward progress -/

/-- Claim C4: after `publishPhase`, every `pis` row has
`entity_updated = true`, the phase is DONE with `completed_at` set, and a PI
whose publish attempt failed carries the error message as its
`entity_error` while still being marked updated. -/
theorem publishPhase_forward_progress (pub : Str → PubOutcome) (now : ℤ) (st : ChunkState) :
    (∀ p ∈ (publishPhase pub now st).pis, p.entity_updated = true)
    ∧ (publishPhase pub now st).phase = .DONE
    ∧ (publishPhase pub now st).completed_at = some now
    ∧ (∀ p ∈ st.pis, p.entity_updated = false → componentsFor st.refs p.pi ≠ [] →
        ∀ msg, pub p.pi = .fail msg →
          { p with entity_updated := true, entity_error := some msg } ∈
            (publishPhase pub now st).pis) := by
  refine ⟨?_, rfl, rfl, ?_⟩
  · intro p hp
    have hp' : p ∈ st.pis.map (publishPIRow pub st.refs) := hp
    obtain ⟨q, hq, rfl⟩ := List.mem_map.mp hp'
    unfold publishPIRow
    by_cases h1 : q.entity_updated = true
    · rw [if_pos h1]
      exact h1
    · rw [if_neg h1]
      by_cases h2 : componentsFor st.refs q.pi = []
      · rw [if_pos h2]
      · rw [if_neg h2]
        cases pub q.pi <;> rfl
  · intro p hp h1 h2 msg hmsg
    have hrow : publishPIRow pub st.refs p =
        { p with entity_updated := true, entity_error := some msg } := by
      unfold publishPIRow
      rw [if_neg (by simp [h1]), if_neg h2, hmsg]
    show _ ∈ st.pis.map (publishPIRow pub st.refs)
    exact hrow ▸ List.mem_map_of_mem (publishPIRow pub st.refs) hp

/-- Witness for C4: the failing store oracle on a one-PI chunk yields DONE
with the PI marked updated and carrying the error. -/
theorem publishPhase_forward_progress_witness :
    (publishPhase failingPub 5 pubDemoState).phase = .DONE
    ∧ ({ pi := "P".toList, entity_updated := true, new_tip := none, new_version := none,
          entity_error := some ("store down".toList) } : PIRow) ∈
        (publishPhase failingPub 5 pubDemoState).pis :=
  ⟨(publishPhase_forward_progress failingPub 5 pubDemoState).2.1,
    (publishPhase_forward_progress failingPub 5 pubDemoState).2.2.2
      { pi := "P".toList, entity_updated := false, new_tip := none, new_version := none,
        entity_error := none }
      (by decide) rfl (by decide) ("store down".toList) rfl⟩

/-! ## Claim C10: the error callback is one-shot and preserving -/

/-- Counterexample for C10 as stated: a failing error callback does not
leave all tables intact — the `debug_log` table gains the diagnostic line
`Error callback failed, state preserved`. -/
theorem sendErrorCallback_counterexample :
    (sendErrorCallbackDB (.non2xx 500) errorPhaseDB).db.debug_log ≠
      errorPhaseDB.debug_log := by
  decide

/-- Claim C10 (amended): the ERROR-phase callback is attempted exactly once
per fire and never retried by the worker: on any non-2xx or network failure
no alarm is scheduled, no retry counter is touched, the state, pis and refs
tables are untouched (only a diagnostic line is appended to the capped
debug log), and cleanup — wiping all four tables — happens only on a 2xx
response. -/
theorem sendErrorCallback_once_preserving (resp : CallbackHttp) (db : WorkerDB)
    (h : resp ≠ .ok2xx) :
    (sendErrorCallbackDB resp db).db.state = db.state
    ∧ (sendErrorCallbackDB resp db).alarmScheduled = none
    ∧ (sendErrorCallbackDB resp db).attempts = 1
    ∧ (sendErrorCallbackDB resp db).cleaned = false
    ∧ (sendErrorCallbackDB resp db).db.debug_log =
        capLog (db.debug_log ++ [errCallbackFailMsg])
    ∧ sendErrorCallbackDB .ok2xx db =
        { db := cleanupDB, attempts := 1, alarmScheduled := none, cleaned := true } := by
  cases resp with
  | ok2xx => exact absurd rfl h
  | non2xx s => exact ⟨rfl, rfl, rfl, rfl, rfl, rfl⟩
  | netError m => exact ⟨rfl, rfl, rfl, rfl, rfl, rfl⟩

/-- Witness for C10: the preservation property evaluated on a 500 response
over a live ERROR-phase database. -/
theorem sendErrorCallback_once_preserving_witness :
    (sendErrorCallbackDB (.non2xx 500) errorPhaseDB).db.state = errorPhaseDB.state
    ∧ (sendErrorCallbackDB (.non2xx 500) errorPhaseDB).alarmScheduled = none
    ∧ (sendErrorCallbackDB (.non2xx 500) errorPhaseDB).attempts = 1
    ∧ (sendErrorCallbackDB (.non2xx 500) errorPhaseDB).cleaned = false
    ∧ (sendErrorCallbackDB (.non2xx 500) errorPhaseDB).db.debug_log =
        capLog (errorPhaseDB.debug_log ++ [errCallbackFailMsg])
    ∧ sendErrorCallbackDB .ok2xx errorPhaseDB =
        { db := cleanupDB, attempts := 1, alarmScheduled := none, cleaned := true } :=
  sendErrorCallback_once_preserving (.non2xx 500) errorPhaseDB (by decide)

/-! ## Claim C1: rate-limit rejections and the retry cap -/

/-- `jsRound` of an integer value is that integer. -/
theorem jsRound_intCast (n : ℤ) : jsRound ((n : ℚ)) = n := by
  rw [jsRound_eq_floor, Int.floor_eq_iff]
  refine ⟨by norm_num, by norm_num⟩

/-- `onError` after zero consecutive errors with jitter draw 0: one error,
750 ms window. -/
theorem onError_from_zero (now : ℤ) (u : Option ℤ) :
    onError now 0 { consecutive_errors := 0, backoff_until := u } =
      { consecutive_errors := 1, backoff_until := some (now + 750) } := by
  simp only [onError, BackoffState.mk.injEq]
  refine ⟨by trivial, ?_⟩
  have harg : (min (1000 * 2 ^ min (0 + 1 - 1) 5 : ℚ) 60000 +
      min (1000 * 2 ^ min (0 + 1 - 1) 5 : ℚ) 60000 * (1 / 4) * ((0 : ℚ) * 2 - 1)) =
        ((750 : ℤ) : ℚ) := by
    norm_num [min_def]
  rw [harg, jsRound_intCast]

/-- `onError` after one consecutive error with jitter draw 0: two errors,
1500 ms window. -/
theorem onError_from_one (now : ℤ) (u : Option ℤ) :
    onError now 0 { consecutive_errors := 1, backoff_until := u } =
      { consecutive_errors := 2, backoff_until := some (now + 1500) } := by
  simp only [onError, BackoffState.mk.injEq]
  refine ⟨by trivial, ?_⟩
  have harg : (min (1000 * 2 ^ min (1 + 1 - 1) 5 : ℚ) 60000 +
      min (1000 * 2 ^ min (1 + 1 - 1) 5 : ℚ) 60000 * (1 / 4) * ((0 : ℚ) * 2 - 1)) =
        ((1500 : ℤ) : ℚ) := by
    norm_num [min_def]
  rw [harg, jsRound_intCast]

/-- The first rate-limited fire re-queues the ref with `retry_count = 1`. -/
theorem rl_fire1 : processPhase rlEnvA oneRefState = rlState1 := by
  simp [processPhase, isInBackoff, rlEnvA, oneRefState, createBackoffState, clearBackoff,
    sampleRef, applyOutcome, batchDeltas, onError_from_zero, rlState1, rlRef1]

/-- The second rate-limited fire re-queues the ref with `retry_count = 2`. -/
theorem rl_fire2 : processPhase rlEnvB rlState1 = rlState2 := by
  simp [processPhase, isInBackoff, rlEnvB, rlState1, oneRefState, rlRef1, createBackoffState,
    clearBackoff, sampleRef, applyOutcome, batchDeltas, onError_from_one, rlState2, rlRef2]

/-- The single transient fire then errors the ref out at the cap. -/
theorem tr_fire3 : processPhase trEnvC rlState2 = capState3 := by
  simp [processPhase, isInBackoff, trEnvC, rlState2, oneRefState, rlRef2, createBackoffState,
    clearBackoff, sampleRef, applyOutcome, batchDeltas, onSuccess, capState3, capRef3]

/-- Counterexample for C1 as stated: with `MAX_RETRIES_PER_REF = 3`, a ref
that suffers two rate-limit rejections followed by a single transient
rejection reaches `status = error` — the rate-limit rejections incremented
the same `retry_count` the transient cap checks, so only one transient
rejection (not three) was needed. -/
theorem processPhase_rate_limit_counts_toward_cap :
    trEnvC.maxRetries = 3
    ∧ processPhase rlEnvA oneRefState = rlState1
    ∧ processPhase rlEnvB rlState1 = rlState2
    ∧ processPhase trEnvC rlState2 = capState3
    ∧ (rlState1.refs.map fun r => (r.status, r.retry_count)) = [(.pending, 1)]
    ∧ (rlState2.refs.map fun r => (r.status, r.retry_count)) = [(.pending, 2)]
    ∧ (capState3.refs.map fun r => (r.status, r.retry_count)) = [(.error, 3)] :=
  ⟨rfl, rl_fire1, rl_fire2, tr_fire3, by decide, by decide, by decide⟩

/-- Claim C1 (amended): a rate-limit rejection never itself moves a ref to
`error` — it always re-queues the ref as `pending` — but it increments the
same `retry_count` the transient cap checks, so rate-limit rejections do
count toward `MAX_RETRIES_PER_REF`: a transient rejection moves the ref to
`error` exactly when the shared incremented `retry_count` reaches the cap. -/
theorem applyOutcome_retry_semantics (maxRetries : ℕ) (r : RefRow) (msg : Str) :
    (applyOutcome maxRetries r (.rateLimited msg)).status = .pending
    ∧ (applyOutcome maxRetries r (.rateLimited msg)).retry_count = r.retry_count + 1
    ∧ (applyOutcome maxRetries r (.transient msg)).retry_count = r.retry_count + 1
    ∧ ((applyOutcome maxRetries r (.transient msg)).status = .error ↔
        maxRetries ≤ r.retry_count + 1) := by
  refine ⟨rfl, rfl, ?_, ?_⟩
  · unfold applyOutcome
    split_ifs <;> rfl
  · unfold applyOutcome
    split_ifs with h
    · exact iff_of_true rfl h
    · exact iff_of_false (by simp) h

/-- Witness for C1's amended statement: the retry semantics evaluated on the
sample pending ref at the default cap. -/
theorem applyOutcome_retry_semantics_witness :
    (applyOutcome 3 sampleRef (.rateLimited [])).status = .pending
    ∧ (applyOutcome 3 sampleRef (.rateLimited [])).retry_count = sampleRef.retry_count + 1
    ∧ (applyOutcome 3 sampleRef (.transient [])).retry_count = sampleRef.retry_count + 1
    ∧ ((applyOutcome 3 sampleRef (.transient [])).status = .error ↔
        3 ≤ sampleRef.retry_count + 1) :=
  applyOutcome_retry_semantics 3 sampleRef []

/-! ## Claim C5: counter conservation from the end of FETCH onward -/

/-- The five ref statuses partition the `refs` table: their counts always
sum to the number of rows. -/
theorem countStatus_partition (refs : List RefRow) :
    countStatus refs .pending + countStatus refs .processing + countStatus refs .done
      + countStatus refs .skipped + countStatus refs .error = refs.length := by
  induction refs with
  | nil => rfl
  | cons r t ih =>
    have hc : ∀ s, countStatus (r :: t) s =
        (if r.status = s then 1 else 0) + countStatus t s := by
      intro s
      by_cases h : r.status = s
      · simp [countStatus, List.filter, h]
        omega
      · simp [countStatus, List.filter, h]
    rw [hc, hc, hc, hc, hc]
    cases hs : r.status <;> simp [hs] <;> omega

/-- A PROCESS fire neither inserts nor deletes `refs` rows. -/
theorem processPhase_refs_length (env : ProcEnv) (st : ChunkState) :
    (processPhase env st).refs.length = st.refs.length := by
  simp only [processPhase]
  split_ifs <;> simp

/-- A PROCESS fire leaves `total_refs` unchanged. -/
theorem processPhase_total (env : ProcEnv) (st : ChunkState) :
    (processPhase env st).total_refs = st.total_refs := by
  simp only [processPhase]
  split_ifs <;> simp

/-- A PROCESS fire leaves the phase as is or advances it to PUBLISHING. -/
theorem processPhase_phase (env : ProcEnv) (st : ChunkState) :
    (processPhase env st).phase = st.phase ∨ (processPhase env st).phase = .PUBLISHING := by
  simp only [processPhase]
  split_ifs <;> simp

/-- One live alarm fire preserves `refs.length = total_refs` and never
returns the worker to the FETCHING phase. -/
theorem alarmFire_preserves (e : FireEnv) (st st' : ChunkState)
    (hlen : st.refs.length = st.total_refs) (hph : st.phase ≠ .FETCHING)
    (hfire : alarmFire e st = some st') :
    st'.refs.length = st'.total_refs ∧ st'.phase ≠ .FETCHING := by
  unfold alarmFire at hfire
  cases hth : e.thrown with
  | some msg =>
    rw [hth] at hfire
    simp only [Option.some.injEq] at hfire
    subst hfire
    simp only [handleGlobalError]
    split_ifs <;> exact ⟨hlen, by first | exact hph | simp⟩
  | none =>
    rw [hth] at hfire
    cases hphase : st.phase with
    | FETCHING => exact absurd hphase hph
    | PROCESSING =>
      rw [hphase] at hfire
      simp only [Option.some.injEq] at hfire
      subst hfire
      refine ⟨by rw [processPhase_refs_length, processPhase_total]; exact hlen, ?_⟩
      rcases processPhase_phase e.proc st with h | h <;> rw [h]
      · rw [hphase]
        simp
      · simp
    | PUBLISHING =>
      rw [hphase] at hfire
      simp only [Option.some.injEq] at hfire
      subst hfire
      exact ⟨hlen, by simp [publishPhase]⟩
    | DONE =>
      rw [hphase] at hfire
      unfold sendCallbackStep at hfire
      by_cases hok : e.callbackOk = true
      · rw [if_pos hok] at hfire
        exact Option.noConfusion hfire
      · rw [if_neg hok] at hfire
        by_cases hg : st.global_retry_count < 3
        · rw [if_pos hg] at hfire
          injection hfire with h
          subst h
          exact ⟨hlen, by simp [hphase]⟩
        · rw [if_neg hg] at hfire
          injection hfire with h
          subst h
          exact ⟨hlen, hph⟩
    | ERROR =>
      rw [hphase] at hfire
      unfold sendErrorCallbackStep at hfire
      by_cases hok : e.callbackOk = true
      · rw [if_pos hok] at hfire
        exact Option.noConfusion hfire
      · rw [if_neg hok] at hfire
        injection hfire with h
        subst h
        exact ⟨hlen, hph⟩

/-- A sequence of live alarm fires preserves `refs.length = total_refs`. -/
theorem runFires_preserves (fires : List FireEnv) :
    ∀ st st' : ChunkState, st.refs.length = st.total_refs → st.phase ≠ .FETCHING →
      runFires fires st = some st' → st'.refs.length = st'.total_refs := by
  induction fires with
  | nil =>
    intro st st' h1 h2 hrun
    simp only [runFires, Option.some.injEq] at hrun
    subst hrun
    exact h1
  | cons e es ih =>
    intro st st' h1 h2 hrun
    unfold runFires at hrun
    cases hf : alarmFire e st with
    | none => rw [hf] at hrun; simp at hrun
    | some st1 =>
      rw [hf] at hrun
      obtain ⟨h1', h2'⟩ := alarmFire_preserves e st st1 h1 h2 hf
      exact ih st1 st' h1' h2' hrun

/-- Claim C5: from the end of the FETCH phase onward, the counts of refs
with status pending, processing, done, skipped and error always sum to the
`total_refs` counter set at the FETCH→PROCESS transition, across every
sequence of live alarm fires. -/
theorem counter_conservation (ctxs : List PIContext) (st0 : ChunkState)
    (h0 : st0.refs = []) (fires : List FireEnv) (st' : ChunkState)
    (hrun : runFires fires (fetchPhase ctxs st0) = some st') :
    countStatus st'.refs .pending + countStatus st'.refs .processing
      + countStatus st'.refs .done + countStatus st'.refs .skipped
      + countStatus st'.refs .error = st'.total_refs := by
  have hlen0 : (fetchPhase ctxs st0).refs.length = (fetchPhase ctxs st0).total_refs := by
    simp [fetchPhase, h0]
  have hph0 : (fetchPhase ctxs st0).phase ≠ .FETCHING := by simp [fetchPhase]
  rw [countStatus_partition]
  exact runFires_preserves fires _ st' hlen0 hph0 hrun

/-- Witness for C5: the conservation sum evaluated on an empty fetch with no
further fires. -/
theorem counter_conservation_witness :
    countStatus (fetchPhase [] (initialChunkState emptyPIsRequest 0)).refs .pending
      + countStatus (fetchPhase [] (initialChunkState emptyPIsRequest 0)).refs .processing
      + countStatus (fetchPhase [] (initialChunkState emptyPIsRequest 0)).refs .done
      + countStatus (fetchPhase [] (initialChunkState emptyPIsRequest 0)).refs .skipped
      + countStatus (fetchPhase [] (initialChunkState emptyPIsRequest 0)).refs .error
      = (fetchPhase [] (initialChunkState emptyPIsRequest 0)).total_refs :=
  counter_conservation [] (initialChunkState emptyPIsRequest 0) rfl []
    (fetchPhase [] (initialChunkState emptyPIsRequest 0)) rfl

/-! ## Claim C6: permanent errors are terminal -/

/-- The two possible shapes of the `refs` table after a PROCESS fire: either
untouched, or updated row-by-row on the selected pending batch only. -/
theorem processPhase_refs_eq (env : ProcEnv) (st : ChunkState) :
    (processPhase env st).refs = st.refs
    ∨ (processPhase env st).refs = st.refs.map fun r =>
        if (((st.refs.filter fun r' => decide (r'.status = .pending)).take
              env.maxParallel).map fun r' => r'.id).contains r.id then
          applyOutcome env.maxRetries r (env.outcome r)
        else r := by
  simp only [processPhase]
  split_ifs with h1 h2 h3
  · exact Or.inl rfl
  · exact Or.inl rfl
  · exact Or.inr rfl
  · exact Or.inr rfl

/-- A PROCESS fire does not touch a row whose status is not `pending`. -/
theorem processPhase_nonpending_frozen (env : ProcEnv) (st : ChunkState)
    (hnd : (st.refs.map fun r => r.id).Nodup)
    (i : ℕ) (r : RefRow) (hr : st.refs[i]? = some r) (h : r.status ≠ .pending) :
    (processPhase env st).refs[i]? = some r := by
  rcases processPhase_refs_eq env st with heq | heq
  · rw [heq, hr]
  · rw [heq, List.getElem?_map, hr, Option.map_some']
    congr 1
    rw [if_neg]
    intro hc
    have hmem : r ∈ st.refs := by
      obtain ⟨hi, he⟩ := List.getElem?_eq_some.mp hr
      exact he ▸ st.refs.getElem_mem hi
    have hidmem : r.id ∈ ((st.refs.filter fun r' => decide (r'.status = .pending)).take
        env.maxParallel).map fun r' => r'.id := by
      simpa using hc
    obtain ⟨s, hs, hsid⟩ := List.mem_map.mp hidmem
    have hsf : s ∈ st.refs.filter fun r' => decide (r'.status = .pending) :=
      List.mem_of_mem_take hs
    have hsmem : s ∈ st.refs := (List.mem_filter.mp hsf).1
    have hspend : s.status = .pending := by simpa using (List.mem_filter.mp hsf).2
    have hsr : s = r := List.inj_on_of_nodup_map hnd hsmem hmem hsid
    exact h (hsr ▸ hspend)

/-- `handleGlobalError` does not touch the `refs` table. -/
theorem handleGlobalError_refs (maxGlobal : ℕ) (msg : Str) (st : ChunkState) :
    (handleGlobalError maxGlobal msg st).refs = st.refs := by
  simp only [handleGlobalError]
  split_ifs <;> rfl

/-- Claim C6: once a ref row has `status = error`, no later alarm fire —
fetch, process, publish, callback or global-error handling — changes that
row: it stays at the same position with the same contents, because PROCESS
fires select only `pending` rows and update only the selected batch. -/
theorem error_ref_terminal (e : FireEnv) (st st' : ChunkState)
    (hnd : (st.refs.map fun r => r.id).Nodup)
    (hfire : alarmFire e st = some st')
    (i : ℕ) (r : RefRow) (hr : st.refs[i]? = some r) (herr : r.status = .error) :
    st'.refs[i]? = some r := by
  have hi : i < st.refs.length := (List.getElem?_eq_some.mp hr).1
  unfold alarmFire at hfire
  cases hth : e.thrown with
  | some msg =>
    rw [hth] at hfire
    simp only [Option.some.injEq] at hfire
    subst hfire
    rw [handleGlobalError_refs]
    exact hr
  | none =>
    rw [hth] at hfire
    cases hphase : st.phase with
    | FETCHING =>
      rw [hphase] at hfire
      simp only [Option.some.injEq] at hfire
      subst hfire
      show (fetchPhase e.contexts st).refs[i]? = some r
      unfold fetchPhase
      simp only
      rw [List.getElem?_append]
      simp [hi, hr]
    | PROCESSING =>
      rw [hphase] at hfire
      simp only [Option.some.injEq] at hfire
      subst hfire
      exact processPhase_nonpending_frozen e.proc st hnd i r hr (by rw [herr]; simp)
    | PUBLISHING =>
      rw [hphase] at hfire
      simp only [Option.some.injEq] at hfire
      subst hfire
      exact hr
    | DONE =>
      rw [hphase] at hfire
      unfold sendCallbackStep at hfire
      by_cases hok : e.callbackOk = true
      · rw [if_pos hok] at hfire
        exact Option.noConfusion hfire
      · rw [if_neg hok] at hfire
        by_cases hg : st.global_retry_count < 3
        · rw [if_pos hg] at hfire
          injection hfire with h
          subst h
          exact hr
        · rw [if_neg hg] at hfire
          injection hfire with h
          subst h
          exact hr
    | ERROR =>
      rw [hphase] at hfire
      unfold sendErrorCallbackStep at hfire
      by_cases hok : e.callbackOk = true
      · rw [if_pos hok] at hfire
        exact Option.noConfusion hfire
      · rw [if_neg hok] at hfire
        injection hfire with h
        subst h
        exact hr

/-- Witness for C6: a PROCESS fire over a chunk whose only ref already
errored leaves that row exactly as it was. -/
theorem error_ref_terminal_witness :
    (processPhase trivialProcEnv oneErrRefState).refs[0]? = some errRef :=
  error_ref_terminal sampleFireEnv oneErrRefState
    (processPhase trivialProcEnv oneErrRefState) (by decide) rfl 0 errRef (by decide)
    (by decide)

/-! ## Claim C9: an empty chunk runs straight through to a success callback -/

/-- A PROCESS fire over a state with no refs and no backoff deadline moves
straight to PUBLISHING. -/
theorem processPhase_no_refs (env : ProcEnv) (st : ChunkState) (h : st.refs = [])
    (hb : st.backoff.backoff_until = none) :
    processPhase env st = { st with phase := .PUBLISHING, backoff := clearBackoff st.backoff } := by
  have hib : isInBackoff env.now st.backoff = false := by
    unfold isInBackoff
    rw [hb]
  simp [processPhase, hib, h, List.take_nil]

/-- Claim C9: a `/process` request with an empty `pis` list is accepted, and
the worker runs through FETCHING, PROCESSING and PUBLISHING to DONE; the
callback it then builds has an empty `results` array, overall status
`success`, and `summary.total_refs = 0`. -/
theorem empty_chunk_success (bid cid : Str) (now0 now2 now3 : ℤ)
    (ctxs : List PIContext) (hctx : ctxs.length = 0) (penv : ProcEnv)
    (pub : Str → PubOutcome) :
    (handleProcess { batch_id := bid, chunk_id := cid, pis := [] } now0 none).1 =
      .accepted cid 0 0
    ∧ (handleProcess { batch_id := bid, chunk_id := cid, pis := [] } now0 none).2 =
        some (initialChunkState { batch_id := bid, chunk_id := cid, pis := [] } now0)
    ∧ (fetchPhase ctxs
        (initialChunkState { batch_id := bid, chunk_id := cid, pis := [] } now0)).phase =
        .PROCESSING
    ∧ (fetchPhase ctxs
        (initialChunkState { batch_id := bid, chunk_id := cid, pis := [] } now0)).total_refs = 0
    ∧ (processPhase penv (fetchPhase ctxs
        (initialChunkState { batch_id := bid, chunk_id := cid, pis := [] } now0))).phase =
        .PUBLISHING
    ∧ (publishPhase pub now2 (processPhase penv (fetchPhase ctxs
        (initialChunkState { batch_id := bid, chunk_id := cid, pis := [] } now0)))).phase =
        .DONE
    ∧ (buildCallback now3 (publishPhase pub now2 (processPhase penv (fetchPhase ctxs
        (initialChunkState { batch_id := bid, chunk_id := cid, pis := [] } now0))))).results = []
    ∧ (buildCallback now3 (publishPhase pub now2 (processPhase penv (fetchPhase ctxs
        (initialChunkState { batch_id := bid, chunk_id := cid, pis := [] } now0))))).status =
        .success
    ∧ (buildCallback now3 (publishPhase pub now2 (processPhase penv (fetchPhase ctxs
        (initialChunkState
          { batch_id := bid, chunk_id := cid, pis := [] } now0))))).summary.total_refs = 0 := by
  have hc : ctxs = [] := List.length_eq_zero.mp hctx
  subst hc
  have hstep := processPhase_no_refs penv
    (fetchPhase [] (initialChunkState { batch_id := bid, chunk_id := cid, pis := [] } now0))
    rfl rfl
  refine ⟨rfl, rfl, rfl, rfl, ?_, rfl, ?_, ?_, ?_⟩
  · rw [hstep]
  · rw [hstep]
    rfl
  · rw [hstep]
    rfl
  · rw [hstep]
    rfl

/-- Witness for C9: the empty chunk evaluated with concrete identifiers,
times and oracles. -/
theorem empty_chunk_success_witness :
    (handleProcess emptyPIsRequest 0 none).1 = .accepted ("c".toList) 0 0
    ∧ (buildCallback 7 (publishPhase failingPub 3 (processPhase trivialProcEnv
        (fetchPhase [] (initialChunkState emptyPIsRequest 0))))).results = []
    ∧ (buildCallback 7 (publishPhase failingPub 3 (processPhase trivialProcEnv
        (fetchPhase [] (initialChunkState emptyPIsRequest 0))))).status = .success
    ∧ (buildCallback 7 (publishPhase failingPub 3 (processPhase trivialProcEnv
        (fetchPhase [] (initialChunkState emptyPIsRequest 0))))).summary.total_refs = 0 :=
  ⟨(empty_chunk_success ("b".toList) ("c".toList) 0 3 7 [] rfl trivialProcEnv failingPub).1,
    (empty_chunk_success ("b".toList) ("c".toList) 0 3 7 [] rfl trivialProcEnv failingPub).2.2.2.2.2.2.1,
    (empty_chunk_success ("b".toList) ("c".toList) 0 3 7 [] rfl trivialProcEnv failingPub).2.2.2.2.2.2.2.1,
    (empty_chunk_success ("b".toList) ("c".toList) 0 3 7 [] rfl trivialProcEnv failingPub).2.2.2.2.2.2.2.2⟩

end ArkeOCR
